import Mathlib

/-!
A shallow embedding of the Tetris state reducer in src/Tetris/Tetris/src/main.ts.

Modelling conventions.
JavaScript numbers are modelled exactly: grid cells, colours and coordinates
are Int; the score and the level are Nat (in the program they are always
non-negative integers, where the truncating bit-or with zero agrees with Nat
division); the PRNG seed is an exact rational, because the program seeds it
with Math.random(), a fractional value, and the linear congruential step then
runs on fractional numbers.  A JavaScript TypeError (reading or writing a
property of an undefined grid row) is modelled by Option.none.  A JavaScript
write to an existing row at a column outside the row (a plain property
assignment that no later read of columns 0..9 nor any row iteration observes)
is modelled as a no-op, which is what setCell does out of range.
-/

abbrev Grid := List (List Int)

structure Tetromino where
  shape : List (List Int)
  color : Int
  x : Int
  y : Int
deriving DecidableEq

structure State where
  gameEnd : Bool
  grid : Grid
  fallingBlock : Tetromino
  nextBlock : Tetromino
  score : Nat
  level : Nat
deriving DecidableEq

/-- The two event kinds the reducer receives: `Move dx dy` (the gravity tick is
`Move 0 1`) and `Rotate`. -/
inductive GameEvent where
  | Move : Int → Int → GameEvent
  | Rotate : GameEvent
deriving DecidableEq

/-- The tetromino catalog (`tetrominoes` in main.ts, lines 44-52). -/
def tetrominoes : List Tetromino :=
  [ { shape := [[1, 1], [1, 1]], color := 1, x := 4, y := -1 },
    { shape := [[1, 1, 1, 1]], color := 2, x := 4, y := -1 },
    { shape := [[0, 1, 0], [1, 1, 1]], color := 3, x := 4, y := -1 },
    { shape := [[1, 1, 1], [1, 0, 0]], color := 4, x := 4, y := -1 },
    { shape := [[1, 1, 1], [0, 0, 1]], color := 5, x := 4, y := -1 },
    { shape := [[1, 1, 0], [0, 1, 1]], color := 6, x := 4, y := -1 },
    { shape := [[0, 1, 1], [1, 1, 0]], color := 7, x := 4, y := -1 } ]

/-- Reading `grid[r][c]` where both indices are in range; out of range it
returns 0 (call sites below always guard the cases where JavaScript semantics
would differ). -/
def getCell (g : Grid) (r c : Int) : Int :=
  if 0 ≤ r ∧ 0 ≤ c then (g.getD r.toNat []).getD c.toNat 0 else 0

/-- Writing `grid[r][c] = v` on a copy; out of range it is a no-op (see the
module comment). -/
def setCell (g : Grid) (r c : Int) (v : Int) : Grid :=
  if 0 ≤ r ∧ 0 ≤ c then g.set r.toNat ((g.getD r.toNat []).set c.toNat v) else g

/-- The cells of one shape row, with the row index `y` and column indices
starting at `x`, in iteration order. -/
def rowCells (y : Nat) : Nat → List Int → List ((Nat × Nat) × Int)
  | _, [] => []
  | x, v :: rest => ((y, x), v) :: rowCells y (x + 1) rest

/-- All cells of a shape with their (row, column) indices, in the nested
iteration order of the JavaScript reduce/some loops. -/
def shapeCells : Nat → List (List Int) → List ((Nat × Nat) × Int)
  | _, [] => []
  | y, row :: rest => rowCells y 0 row ++ shapeCells (y + 1) rest

/-- `tetrominoRotation` (main.ts lines 192-199): transpose the shape and
reverse each resulting row, i.e. rotate clockwise. -/
def tetrominoRotation (shape : List (List Int)) : List (List Int) :=
  (List.range (shape.headD []).length).map
    (fun columnIndex => (shape.map (fun row => row.getD columnIndex 0)).reverse)

/-- `collisionChecker` (main.ts lines 243-264).  The disjunct
`0 ≤ targetY ∧ targetY.toNat < grid.length` models the JavaScript truthiness
test `grid[targetY] &&`. -/
def collisionChecker (grid : Grid) (block : Tetromino) (offsetX offsetY : Int) : Bool :=
  (shapeCells 0 block.shape).any fun cell =>
    let targetX : Int := block.x + (cell.1.2 : Int) + offsetX
    let targetY : Int := block.y + (cell.1.1 : Int) + offsetY
    decide (cell.2 ≠ 0) &&
      (decide (targetX < 0) || decide (10 ≤ targetX) || decide (20 ≤ targetY) ||
        (decide (0 ≤ targetY) && decide (targetY.toNat < grid.length) &&
          decide (getCell grid targetY targetX ≠ 0)))

/-- One step of the `mergeBlockWithBlock` reduce (main.ts lines 215-231).
The guard admits `gridY = GRID_HEIGHT = 20`; reading row 20 of a 20-row grid
then throws in JavaScript, modelled by `none`. -/
def mergeCellStep (block : Tetromino) (acc : Option Grid) (cell : (Nat × Nat) × Int) :
    Option Grid :=
  match acc with
  | none => none
  | some g =>
    if cell.2 ≠ 0 then
      let gridX : Int := block.x + (cell.1.2 : Int)
      let gridY : Int := block.y + (cell.1.1 : Int)
      if 0 ≤ gridY ∧ gridY ≤ 20 ∧ 0 ≤ gridX ∧ gridX < 10 then
        if gridY.toNat < g.length then
          if getCell g gridY gridX ≤ 0 then some (setCell g gridY gridX block.color)
          else some g
        else none
      else some g
    else some g

/-- `mergeBlockWithBlock` (main.ts lines 210-232). -/
def mergeBlockWithBlock (grid : Grid) (block : Tetromino) : Option Grid :=
  (shapeCells 0 block.shape).foldl (mergeCellStep block) (some grid)

/-- JavaScript truncation toward zero (the `| 0` operator and the rounding
used by `%`). -/
def jsTrunc (q : ℚ) : Int := if 0 ≤ q then ⌊q⌋ else ⌈q⌉

/-- JavaScript remainder (sign follows the dividend). -/
def jsMod (a b : ℚ) : ℚ := a - b * (jsTrunc (a / b) : ℚ)

/-- `rngStream` (main.ts lines 267-273): advance the linear congruential seed;
the stream value returned to the caller is `seed / 2^32`. -/
def rngStream (seed : ℚ) : ℚ := jsMod (1664525 * seed + 1013904223) 4294967296

def defaultTetromino : Tetromino := { shape := [[1, 1], [1, 1]], color := 1, x := 4, y := -1 }

/-- `getRandomTetromino` (main.ts lines 276-281): draw an index in 0..6 from
the stream and instantiate the catalog entry at anchor (4, 0).  For the seeds
the program can actually hold (non-negative) the index is always in range; the
`getD` default is never consulted there. -/
def getRandomTetromino (seed : ℚ) : Tetromino × ℚ :=
  ({ tetrominoes.getD (jsTrunc (rngStream seed / 4294967296 * 7)).toNat defaultTetromino
      with x := 4, y := 0 },
    rngStream seed)

/-- The piece a draw returns. -/
def drawnPiece (seed : ℚ) : Tetromino := (getRandomTetromino seed).1

/-- `lockBlockChecker` (main.ts lines 290-311). -/
def lockBlockChecker (block : Tetromino) (grid : Grid) : Bool :=
  decide (19 < block.y + (block.shape.length : Int)) ||
    collisionChecker grid block 0 1 ||
    decide (block.y < -1)

/-- One step of the lock-in reduce (main.ts lines 337-346): the write
`rowAcc[occupiedGridY][occupiedGridX] = block.color` has no bounds check and
no emptiness check; a row index outside the grid throws (none). -/
def lockCellStep (block : Tetromino) (acc : Option Grid) (cell : (Nat × Nat) × Int) :
    Option Grid :=
  match acc with
  | none => none
  | some g =>
    if cell.2 ≠ 0 then
      let occupiedGridX : Int := block.x + (cell.1.2 : Int)
      let occupiedGridY : Int := block.y + (cell.1.1 : Int)
      if 0 ≤ occupiedGridY ∧ occupiedGridY.toNat < g.length then
        some (setCell g occupiedGridY occupiedGridX block.color)
      else none
    else some g

/-- The unconditional lock-in pass of `lockBlock` (main.ts lines 337-346). -/
def lockedGridOf (grid : Grid) (block : Tetromino) : Option Grid :=
  (shapeCells 0 block.shape).foldl (lockCellStep block) (some grid)

/-- `newGrid[0].some(cell => cell !== 0)` (main.ts line 326). -/
def topRowFull (g : Grid) : Bool := (g.headD []).any fun v => decide (v ≠ 0)

/-- `lockBlock` (main.ts lines 319-355).  Note: the random draw happens before
the top-row test, so the seed advances even on game over; and on game over the
merged grid is discarded (the returned state keeps `state.grid`). -/
def lockBlock (state : State) (block : Tetromino) (seed : ℚ) : Option (State × ℚ) :=
  match mergeBlockWithBlock state.grid block with
  | none => none
  | some newGrid =>
    let nb := (getRandomTetromino seed).1
    let seed2 := (getRandomTetromino seed).2
    if topRowFull newGrid then some ({ state with gameEnd := true }, seed2)
    else
      match lockedGridOf newGrid block with
      | none => none
      | some lockedGrid =>
        some ({ state with grid := lockedGrid, fallingBlock := nb, nextBlock := nb }, seed2)

/-- `row.some(cell => cell === 0)` (main.ts line 366). -/
def rowHasZero (row : List Int) : Bool := row.any fun v => decide (v = 0)

/-- `clearAndMoveRows` (main.ts lines 364-384). -/
def clearAndMoveRows (grid : Grid) (score level : Nat) : Grid × Nat × Nat :=
  let clearedRows := grid.filter rowHasZero
  let clearedRowCount := grid.length - clearedRows.length
  let newRows := List.replicate clearedRowCount (List.replicate 10 (0 : Int))
  let newScore := score + clearedRowCount * 100
  let newLevel := newScore / 500 + 1
  (newRows ++ clearedRows, newScore, newLevel)

/-- The horizontal clamp of `stateUpdater` (main.ts lines 412-419). -/
def clampX (b : Tetromino) : Tetromino :=
  let w : Int := ((b.shape.headD []).length : Int)
  let b1 := if b.x < 0 then { b with x := 0 } else b
  if 10 < b1.x + w then { b1 with x := 10 - w } else b1

/-- The move/rotate dispatch of `stateUpdater` (main.ts lines 397-410). -/
def movedPiece (b : Tetromino) (e : GameEvent) (grid : Grid) : Tetromino :=
  match e with
  | .Move dx dy => { b with x := b.x + dx, y := b.y + dy }
  | .Rotate =>
    let rotatedBlock := tetrominoRotation b.shape
    if collisionChecker grid { b with shape := rotatedBlock } 0 0 then b
    else { b with shape := rotatedBlock }

/-- The falling piece as it stands after dispatch and clamp, just before the
lock test. -/
def pieceAfter (s : State) (e : GameEvent) : Tetromino :=
  clampX (movedPiece s.fallingBlock e s.grid)

/-- `stateUpdater` (main.ts lines 392-443).  There is no test of
`state.gameEnd` anywhere: terminal states are processed like any other. -/
def stateUpdater (s : State) (e : GameEvent) (seed : ℚ) : Option (State × ℚ) :=
  let b2 := pieceAfter s e
  if lockBlockChecker b2 s.grid then lockBlock s b2 seed
  else if b2.y < -1 then some ({ s with gameEnd := true }, seed)
  else
    let r := clearAndMoveRows s.grid s.score s.level
    some ({ s with grid := r.1, fallingBlock := b2, score := r.2.1, level := r.2.2 }, seed)

/-- `initialState` (main.ts lines 78-88), parametrised by the two pieces that
`Math.random()` picked. -/
def initialState (fb nb : Tetromino) : State :=
  { gameEnd := false,
    grid := List.replicate 20 (List.replicate 10 (0 : Int)),
    fallingBlock := fb,
    nextBlock := nb,
    score := 0,
    level := 1 }

/-- The four events the program ever generates: KeyA, KeyD, KeyS and the
gravity tick (both `Move 0 1`), and KeyW (`Rotate`). -/
def unitEvents : List GameEvent :=
  [GameEvent.Move (-1) 0, GameEvent.Move 1 0, GameEvent.Move 0 1, GameEvent.Rotate]

/-- One reducer step under a program event, on state-and-seed pairs. -/
def stepRel (p p' : State × ℚ) : Prop :=
  ∃ e ∈ unitEvents, stateUpdater p.1 e p.2 = some p'

/-- All shapes reachable in play: the seven catalog shapes together with their
clockwise rotations (closed under `tetrominoRotation`). -/
def allowedShapes : List (List (List Int)) :=
  [ [[1, 1], [1, 1]],
    [[1, 1, 1, 1]], [[1], [1], [1], [1]],
    [[0, 1, 0], [1, 1, 1]], [[1, 0], [1, 1], [1, 0]],
    [[1, 1, 1], [0, 1, 0]], [[0, 1], [1, 1], [0, 1]],
    [[1, 1, 1], [1, 0, 0]], [[1, 1], [0, 1], [0, 1]],
    [[0, 0, 1], [1, 1, 1]], [[1, 0], [1, 0], [1, 1]],
    [[1, 1, 1], [0, 0, 1]], [[0, 1], [0, 1], [1, 1]],
    [[1, 0, 0], [1, 1, 1]], [[1, 1], [1, 0], [1, 0]],
    [[1, 1, 0], [0, 1, 1]], [[0, 1], [1, 1], [1, 0]],
    [[0, 1, 1], [1, 1, 0]], [[1, 0], [1, 1], [0, 1]] ]

/-- Invariant on the falling piece along any run of the program. -/
def PieceOK (b : Tetromino) : Prop :=
  b.shape ∈ allowedShapes ∧ 0 < b.color ∧ -1 ≤ b.y ∧
    b.y + (b.shape.length : Int) ≤ 19

/-- Invariant on the board along any run of the program. -/
def GridOK (g : Grid) : Prop :=
  g.length = 20 ∧ (∀ row ∈ g, row.length = 10) ∧
    ∀ row ∈ g, ∀ v ∈ row, 0 ≤ v

/-- Invariant on reachable states. -/
def StateOK (s : State) : Prop := GridOK s.grid ∧ PieceOK s.fallingBlock

instance (b : Tetromino) : Decidable (PieceOK b) := by unfold PieceOK; infer_instance

instance (g : Grid) : Decidable (GridOK g) := by unfold GridOK; infer_instance

instance (s : State) : Decidable (StateOK s) := by unfold StateOK; infer_instance


/-! ### Concrete fixtures used by the claim counterexamples and witnesses -/

def emptyRow : List Int := List.replicate 10 0

def emptyGrid : Grid := List.replicate 20 emptyRow

/-- The catalog O-piece (`tetrominoes[0]`). -/
def c3Tet : Tetromino := { shape := [[1, 1], [1, 1]], color := 1, x := 4, y := -1 }

/-- The state one gravity tick after `initialState c3Tet c3Tet`. -/
def c3Step1 : State :=
  { gameEnd := false, grid := emptyGrid,
    fallingBlock := { shape := [[1, 1], [1, 1]], color := 1, x := 4, y := 0 },
    nextBlock := c3Tet, score := 0, level := 1 }

def c1State : State :=
  { gameEnd := false, grid := emptyGrid,
    fallingBlock := { shape := [[1, 1], [1, 1]], color := 1, x := 4, y := 17 },
    nextBlock := { shape := [[0, 1, 0], [1, 1, 1]], color := 3, x := 4, y := 0 },
    score := 0, level := 1 }

def c1Grid : Grid :=
  List.replicate 18 emptyRow ++
    [[0, 0, 0, 0, 1, 1, 0, 0, 0, 0], [0, 0, 0, 0, 1, 1, 0, 0, 0, 0]]

def c1Out : State :=
  { c1State with grid := c1Grid, fallingBlock := drawnPiece 0, nextBlock := drawnPiece 0 }

def c2State : State :=
  { gameEnd := true, grid := List.replicate 19 emptyRow ++ [List.replicate 10 1],
    fallingBlock := { shape := [[1, 1], [1, 1]], color := 1, x := 4, y := 0 },
    nextBlock := { shape := [[1, 1], [1, 1]], color := 1, x := 4, y := 0 },
    score := 0, level := 1 }

def c2Out : State :=
  { c2State with grid := emptyGrid, fallingBlock := { shape := [[1, 1], [1, 1]], color := 1, x := 4, y := 1 }, score := 100, level := 1 }

def c2wState : State :=
  { gameEnd := true,
    grid := [[1, 0, 0, 0, 0, 0, 0, 0, 0, 0]] ++ List.replicate 19 emptyRow,
    fallingBlock := { shape := [[1, 1], [1, 1]], color := 1, x := 4, y := 17 },
    nextBlock := { shape := [[1, 1], [1, 1]], color := 1, x := 4, y := 0 },
    score := 3, level := 1 }

def c2wMerged : Grid :=
  [[1, 0, 0, 0, 0, 0, 0, 0, 0, 0]] ++ List.replicate 17 emptyRow ++
    [[0, 0, 0, 0, 1, 1, 0, 0, 0, 0], [0, 0, 0, 0, 1, 1, 0, 0, 0, 0]]

def c4Grid : Grid := List.replicate 19 emptyRow ++ [[0, 0, 0, 0, 3, 0, 0, 0, 0, 0]]

def c4State : State :=
  { gameEnd := false, grid := c4Grid,
    fallingBlock := { shape := [[1, 1], [1, 1]], color := 1, x := 4, y := 17 },
    nextBlock := { shape := [[1, 1], [1, 1]], color := 1, x := 4, y := 0 },
    score := 0, level := 1 }

def c4Merged : Grid :=
  List.replicate 18 emptyRow ++
    [[0, 0, 0, 0, 1, 1, 0, 0, 0, 0], [0, 0, 0, 0, 3, 1, 0, 0, 0, 0]]

def c4OutGrid : Grid :=
  List.replicate 18 emptyRow ++
    [[0, 0, 0, 0, 1, 1, 0, 0, 0, 0], [0, 0, 0, 0, 1, 1, 0, 0, 0, 0]]

def c4Out : State :=
  { c4State with grid := c4OutGrid, fallingBlock := drawnPiece 0, nextBlock := drawnPiece 0 }

def c5State : State :=
  { gameEnd := false,
    grid := [[1, 0, 0, 0, 0, 0, 0, 0, 0, 0]] ++ List.replicate 18 emptyRow ++
      [[1, 1, 1, 1, 0, 0, 1, 1, 1, 1]],
    fallingBlock := { shape := [[1, 1], [1, 1]], color := 1, x := 4, y := 17 },
    nextBlock := { shape := [[1, 1], [1, 1]], color := 1, x := 4, y := 0 },
    score := 0, level := 1 }

def c5Merged : Grid :=
  [[1, 0, 0, 0, 0, 0, 0, 0, 0, 0]] ++ List.replicate 17 emptyRow ++
    [[0, 0, 0, 0, 1, 1, 0, 0, 0, 0], [1, 1, 1, 1, 1, 1, 1, 1, 1, 1]]

def c5wState : State :=
  { gameEnd := false,
    grid := List.replicate 19 emptyRow ++ [[1, 1, 1, 1, 0, 0, 1, 1, 1, 1]],
    fallingBlock := { shape := [[1, 1], [1, 1]], color := 1, x := 4, y := 17 },
    nextBlock := { shape := [[1, 1], [1, 1]], color := 1, x := 4, y := 0 },
    score := 0, level := 1 }

def c5wMerged : Grid :=
  List.replicate 18 emptyRow ++
    [[0, 0, 0, 0, 1, 1, 0, 0, 0, 0], [1, 1, 1, 1, 1, 1, 1, 1, 1, 1]]

def c5wOut : State :=
  { c5wState with grid := c5wMerged, fallingBlock := drawnPiece 0, nextBlock := drawnPiece 0 }

def c6Grid : Grid :=
  List.replicate 18 emptyRow ++ [List.replicate 10 1, List.replicate 10 2]

def c7State : State :=
  { gameEnd := false, grid := emptyGrid,
    fallingBlock := { shape := [[0, 1, 0], [1, 1, 1]], color := 3, x := 4, y := 5 },
    nextBlock := { shape := [[1, 1], [1, 1]], color := 1, x := 4, y := 0 },
    score := 0, level := 1 }

def c7Out : State :=
  { c7State with fallingBlock := { shape := [[1, 0], [1, 1], [1, 0]], color := 3, x := 4, y := 5 } }

def c8State : State :=
  { gameEnd := false,
    grid := [[1, 0, 0, 0, 0, 0, 0, 0, 0, 0]] ++ List.replicate 19 emptyRow,
    fallingBlock := { shape := [[1, 1], [1, 1]], color := 1, x := -5, y := 17 },
    nextBlock := { shape := [[1, 1], [1, 1]], color := 1, x := 4, y := 0 },
    score := 0, level := 1 }

def c8wState : State :=
  { gameEnd := false, grid := emptyGrid,
    fallingBlock := { shape := [[1, 1], [1, 1]], color := 1, x := -5, y := 5 },
    nextBlock := { shape := [[1, 1], [1, 1]], color := 1, x := 4, y := 0 },
    score := 0, level := 1 }

def c8wOut : State :=
  { c8wState with grid := emptyGrid, fallingBlock := { shape := [[1, 1], [1, 1]], color := 1, x := 0, y := 5 } }

def c9State : State :=
  { gameEnd := false, grid := emptyGrid,
    fallingBlock := { shape := [[1, 1], [1, 1]], color := 1, x := 4, y := 17 },
    nextBlock := { shape := [[1, 1, 1], [1, 0, 0]], color := 4, x := 4, y := 0 },
    score := 0, level := 1 }

def c9Merged : Grid :=
  List.replicate 18 emptyRow ++
    [[0, 0, 0, 0, 1, 1, 0, 0, 0, 0], [0, 0, 0, 0, 1, 1, 0, 0, 0, 0]]

def c9Out : State :=
  { c9State with grid := c9Merged, fallingBlock := drawnPiece 0, nextBlock := drawnPiece 0 }

def c10State : State :=
  { gameEnd := true, grid := emptyGrid,
    fallingBlock := { shape := [[1, 1], [1, 1]], color := 1, x := 4, y := 0 },
    nextBlock := { shape := [[1, 1], [1, 1]], color := 1, x := 4, y := 0 },
    score := 0, level := 1 }

def c10Out : State :=
  { c10State with grid := emptyGrid, fallingBlock := { shape := [[1, 1], [1, 1]], color := 1, x := 4, y := 1 } }

/-! ### Elementary list-access lemmas -/

lemma getD_set_self {α : Type} (l : List α) (i : Nat) (a d : α) (h : i < l.length) :
    (l.set i a).getD i d = a := by
  induction l generalizing i with
  | nil => simp at h
  | cons x xs ih =>
    cases i with
    | zero => rfl
    | succ n => simpa using ih n (by simpa using h)

lemma getD_set_ne {α : Type} (l : List α) (i j : Nat) (a d : α) (h : i ≠ j) :
    (l.set i a).getD j d = l.getD j d := by
  induction l generalizing i j with
  | nil => rfl
  | cons x xs ih =>
    cases i with
    | zero =>
      cases j with
      | zero => exact absurd rfl h
      | succ m => rfl
    | succ n =>
      cases j with
      | zero => rfl
      | succ m => simpa using ih n m (by omega)

lemma getD_of_length_le {α : Type} (l : List α) (i : Nat) (d : α) (h : l.length ≤ i) :
    l.getD i d = d := by
  induction l generalizing i with
  | nil => rfl
  | cons x xs ih =>
    cases i with
    | zero => simp at h
    | succ n => simpa using ih n (by simpa using h)

lemma getD_mem {α : Type} (l : List α) (i : Nat) (d : α) (h : i < l.length) :
    l.getD i d ∈ l := by
  induction l generalizing i with
  | nil => simp at h
  | cons x xs ih =>
    cases i with
    | zero => simp [List.getD]
    | succ n =>
      have := ih n (by simpa using h)
      simp only [List.getD_cons_succ]
      exact List.mem_cons_of_mem _ this

lemma mem_of_mem_set {α : Type} (l : List α) (i : Nat) (a x : α) (h : x ∈ l.set i a) :
    x ∈ l ∨ x = a := by
  induction l generalizing i with
  | nil => simp at h
  | cons y ys ih =>
    cases i with
    | zero =>
      rcases List.mem_cons.1 h with h1 | h1
      · right; exact h1
      · left; exact List.mem_cons_of_mem _ h1
    | succ n =>
      rcases List.mem_cons.1 h with h1 | h1
      · left; simp [h1]
      · rcases ih n h1 with h2 | h2
        · left; exact List.mem_cons_of_mem _ h2
        · right; exact h2

/-! ### getCell / setCell lemmas -/

lemma setCell_length (g : Grid) (r c v : Int) : (setCell g r c v).length = g.length := by
  unfold setCell; split <;> simp

lemma getCell_setCell_ne (g : Grid) (r c r' c' v : Int) (h : ¬(r = r' ∧ c = c')) :
    getCell (setCell g r c v) r' c' = getCell g r' c' := by
  unfold getCell setCell
  by_cases hr : 0 ≤ r ∧ 0 ≤ c
  · rw [if_pos hr]
    by_cases hr' : 0 ≤ r' ∧ 0 ≤ c'
    · rw [if_pos hr', if_pos hr']
      by_cases hrr : r = r'
      · have hcc : c ≠ c' := fun hc => h ⟨hrr, hc⟩
        have : r.toNat = r'.toNat := by omega
        rw [← this]
        by_cases hlen : r.toNat < g.length
        · rw [getD_set_self g r.toNat _ [] hlen]
          exact getD_set_ne _ c.toNat c'.toNat v 0 (by omega)
        · rw [List.set_eq_of_length_le (by omega)]
      · rw [getD_set_ne g r.toNat r'.toNat _ [] (by omega)]
    · rw [if_neg hr', if_neg hr']
  · rw [if_neg hr]

lemma getCell_setCell_self (g : Grid) (r c v : Int) (hr : 0 ≤ r) (hc : 0 ≤ c)
    (hlen : r.toNat < g.length) (hrow : c.toNat < (g.getD r.toNat []).length) :
    getCell (setCell g r c v) r c = v := by
  unfold getCell setCell
  rw [if_pos ⟨hr, hc⟩, if_pos ⟨hr, hc⟩]
  rw [getD_set_self g r.toNat _ [] hlen]
  exact getD_set_self _ c.toNat v 0 hrow

lemma getCell_setCell_cases (g : Grid) (r c r' c' v : Int) :
    getCell (setCell g r c v) r' c' = getCell g r' c' ∨ getCell (setCell g r c v) r' c' = v := by
  by_cases h : r = r' ∧ c = c'
  · obtain ⟨h1, h2⟩ := h
    subst h1; subst h2
    by_cases hr : 0 ≤ r ∧ 0 ≤ c
    · by_cases hlen : r.toNat < g.length
      · by_cases hrow : c.toNat < (g.getD r.toNat []).length
        · right; exact getCell_setCell_self g r c v hr.1 hr.2 hlen hrow
        · left
          unfold getCell setCell
          rw [if_pos hr, if_pos hr, getD_set_self g r.toNat _ [] hlen]
          rw [List.set_eq_of_length_le (by omega), if_pos hr]
      · left
        unfold getCell setCell
        rw [if_pos hr, if_pos hr, List.set_eq_of_length_le (by omega), if_pos hr]
    · left; unfold setCell; rw [if_neg hr]
  · left; exact getCell_setCell_ne g r c r' c' v h

lemma setCell_rows_length (g : Grid) (r c v : Int) (w : Nat)
    (hg : ∀ row ∈ g, row.length = w) :
    ∀ row ∈ setCell g r c v, row.length = w := by
  intro row hrow
  unfold setCell at hrow
  split at hrow
  · by_cases hlen : r.toNat < g.length
    · rcases mem_of_mem_set _ _ _ _ hrow with h | h
      · exact hg _ h
      · subst h
        rw [List.length_set]
        exact hg _ (getD_mem g r.toNat [] hlen)
    · rw [List.set_eq_of_length_le (by omega)] at hrow
      exact hg _ hrow
  · exact hg _ hrow

lemma setCell_rows_nonneg (g : Grid) (r c v : Int) (hv : 0 ≤ v)
    (hg : ∀ row ∈ g, ∀ x ∈ row, 0 ≤ x) :
    ∀ row ∈ setCell g r c v, ∀ x ∈ row, 0 ≤ x := by
  intro row hrow
  unfold setCell at hrow
  split at hrow
  · rcases mem_of_mem_set _ _ _ _ hrow with h | h
    · exact hg _ h
    · subst h
      intro x hx
      rcases mem_of_mem_set _ _ _ _ hx with h2 | h2
      · by_cases hlen : r.toNat < g.length
        · exact hg _ (getD_mem g r.toNat [] hlen) _ h2
        · rw [getD_of_length_le g r.toNat [] (by omega)] at h2; simp at h2
      · subst h2; exact hv
  · exact hg _ hrow

/-! ### Shape-cell enumeration lemmas -/

lemma mem_rowCells {p : (Nat × Nat) × Int} {y0 x0 : Nat} {row : List Int} :
    p ∈ rowCells y0 x0 row ↔
      p.1.1 = y0 ∧ ∃ i, i < row.length ∧ p.1.2 = x0 + i ∧ row.getD i 0 = p.2 := by
  induction row generalizing x0 with
  | nil => simp [rowCells]
  | cons v rest ih =>
    simp only [rowCells, List.mem_cons, ih]
    constructor
    · rintro (h | ⟨h1, i, hi, h2, h3⟩)
      · subst h
        exact ⟨rfl, 0, by simp, by simp, rfl⟩
      · refine ⟨h1, i + 1, by simpa using hi, by omega, by simpa using h3⟩
    · rintro ⟨h1, i, hi, h2, h3⟩
      cases i with
      | zero =>
        left
        obtain ⟨⟨py, px⟩, pv⟩ := p
        simp only at h1 h2 h3 ⊢
        simp at h3
        subst h1; subst h3
        simp at h2
        subst h2
        rfl
      | succ n =>
        right
        exact ⟨h1, n, by simpa using hi, by omega, by simpa using h3⟩

lemma mem_shapeCells {p : (Nat × Nat) × Int} {y0 : Nat} {shape : List (List Int)} :
    p ∈ shapeCells y0 shape ↔
      ∃ j, j < shape.length ∧ p.1.1 = y0 + j ∧
        p.1.2 < (shape.getD j []).length ∧ (shape.getD j []).getD p.1.2 0 = p.2 := by
  induction shape generalizing y0 with
  | nil => simp [shapeCells]
  | cons row rest ih =>
    simp only [shapeCells, List.mem_append, mem_rowCells, ih]
    constructor
    · rintro (⟨h1, i, hi, h2, h3⟩ | ⟨j, hj, h1, h2, h3⟩)
      · exact ⟨0, by simp, by omega, by simpa [h2] using hi, by simpa [h2] using h3⟩
      · exact ⟨j + 1, by simpa using hj, by omega, by simpa using h2, by simpa using h3⟩
    · rintro ⟨j, hj, h1, h2, h3⟩
      cases j with
      | zero =>
        left
        exact ⟨by simpa using h1, p.1.2, by simpa using h2, by omega, by simpa using h3⟩
      | succ n =>
        right
        exact ⟨n, by simpa using hj, by omega, by simpa using h2, by simpa using h3⟩

/-! ### Generic lemmas about the Option-valued folds -/

section FoldLemmas

variable {f : Option Grid → (Nat × Nat) × Int → Option Grid}

lemma foldl_none_fixed (hnone : ∀ c, f none c = none) :
    ∀ l : List ((Nat × Nat) × Int), l.foldl f none = none := by
  intro l
  induction l with
  | nil => rfl
  | cons c rest ih => simp only [List.foldl_cons, hnone]; exact ih

lemma foldl_some_pres (hnone : ∀ c, f none c = none) (P : Grid → Prop)
    (hstep : ∀ g c g', P g → f (some g) c = some g' → P g') :
    ∀ (l : List ((Nat × Nat) × Int)) (g g' : Grid),
      P g → l.foldl f (some g) = some g' → P g' := by
  intro l
  induction l with
  | nil =>
    intro g g' hP h
    simp only [List.foldl_nil, Option.some.injEq] at h
    exact h ▸ hP
  | cons c rest ih =>
    intro g g' hP h
    simp only [List.foldl_cons] at h
    cases hf : f (some g) c with
    | none => rw [hf, foldl_none_fixed hnone] at h; exact absurd h (by simp)
    | some g1 => rw [hf] at h; exact ih g1 g' (hstep g c g1 hP hf) h

lemma foldl_total (P : Grid → Prop) (Q : (Nat × Nat) × Int → Prop)
    (hstep : ∀ g c, P g → Q c → ∃ g', f (some g) c = some g' ∧ P g') :
    ∀ (l : List ((Nat × Nat) × Int)) (g : Grid),
      P g → (∀ c ∈ l, Q c) → ∃ g', l.foldl f (some g) = some g' ∧ P g' := by
  intro l
  induction l with
  | nil => intro g hP _; exact ⟨g, rfl, hP⟩
  | cons c rest ih =>
    intro g hP hQ
    obtain ⟨g1, hf, hP1⟩ := hstep g c hP (hQ c (by simp))
    obtain ⟨g', hfold, hP'⟩ := ih g1 hP1 (fun d hd => hQ d (by simp [hd]))
    exact ⟨g', by simpa [List.foldl_cons, hf] using hfold, hP'⟩

lemma foldl_append_some (hnone : ∀ c, f none c = none)
    (l1 l2 : List ((Nat × Nat) × Int)) (g g' : Grid)
    (h : (l1 ++ l2).foldl f (some g) = some g') :
    ∃ g1, l1.foldl f (some g) = some g1 ∧ l2.foldl f (some g1) = some g' := by
  rw [List.foldl_append] at h
  cases hf : l1.foldl f (some g) with
  | none => rw [hf, foldl_none_fixed hnone] at h; exact absurd h (by simp)
  | some g1 => rw [hf] at h; exact ⟨g1, rfl, h⟩

end FoldLemmas

/-! ### Characterisation of the single merge / lock-in steps -/

lemma mergeCellStep_none (b : Tetromino) (c : (Nat × Nat) × Int) :
    mergeCellStep b none c = none := rfl

lemma lockCellStep_none (b : Tetromino) (c : (Nat × Nat) × Int) :
    lockCellStep b none c = none := rfl

lemma mergeCellStep_eq (b : Tetromino) (g : Grid) (c : (Nat × Nat) × Int) (g' : Grid)
    (h : mergeCellStep b (some g) c = some g') :
    g' = g ∨
      (c.2 ≠ 0 ∧ 0 ≤ b.y + (c.1.1 : Int) ∧ b.y + (c.1.1 : Int) ≤ 20 ∧
        0 ≤ b.x + (c.1.2 : Int) ∧ b.x + (c.1.2 : Int) < 10 ∧
        (b.y + (c.1.1 : Int)).toNat < g.length ∧
        getCell g (b.y + (c.1.1 : Int)) (b.x + (c.1.2 : Int)) ≤ 0 ∧
        g' = setCell g (b.y + (c.1.1 : Int)) (b.x + (c.1.2 : Int)) b.color) := by
  unfold mergeCellStep at h
  dsimp only at h
  by_cases h0 : c.2 ≠ 0
  · rw [if_pos h0] at h
    by_cases h1 : 0 ≤ b.y + (c.1.1 : Int) ∧ b.y + (c.1.1 : Int) ≤ 20 ∧
        0 ≤ b.x + (c.1.2 : Int) ∧ b.x + (c.1.2 : Int) < 10
    · rw [if_pos h1] at h
      by_cases h2 : (b.y + (c.1.1 : Int)).toNat < g.length
      · rw [if_pos h2] at h
        by_cases h3 : getCell g (b.y + (c.1.1 : Int)) (b.x + (c.1.2 : Int)) ≤ 0
        · rw [if_pos h3] at h
          simp only [Option.some.injEq] at h
          exact Or.inr ⟨h0, h1.1, h1.2.1, h1.2.2.1, h1.2.2.2, h2, h3, h.symm⟩
        · rw [if_neg h3] at h
          simp only [Option.some.injEq] at h
          exact Or.inl h.symm
      · rw [if_neg h2] at h; exact absurd h (by simp)
    · rw [if_neg h1] at h
      simp only [Option.some.injEq] at h
      exact Or.inl h.symm
  · rw [if_neg h0] at h
    simp only [Option.some.injEq] at h
    exact Or.inl h.symm

lemma mergeCellStep_some (b : Tetromino) (g : Grid) (c : (Nat × Nat) × Int)
    (hlen : g.length = 20) (hsafe : c.2 ≠ 0 → b.y + (c.1.1 : Int) ≤ 19) :
    ∃ g', mergeCellStep b (some g) c = some g' ∧ g'.length = 20 := by
  unfold mergeCellStep
  dsimp only
  by_cases h0 : c.2 ≠ 0
  · rw [if_pos h0]
    by_cases h1 : 0 ≤ b.y + (c.1.1 : Int) ∧ b.y + (c.1.1 : Int) ≤ 20 ∧
        0 ≤ b.x + (c.1.2 : Int) ∧ b.x + (c.1.2 : Int) < 10
    · rw [if_pos h1]
      have h2 : (b.y + (c.1.1 : Int)).toNat < g.length := by
        have := hsafe h0
        omega
      rw [if_pos h2]
      by_cases h3 : getCell g (b.y + (c.1.1 : Int)) (b.x + (c.1.2 : Int)) ≤ 0
      · rw [if_pos h3]
        exact ⟨_, rfl, by rw [setCell_length]; exact hlen⟩
      · rw [if_neg h3]; exact ⟨g, rfl, hlen⟩
    · rw [if_neg h1]; exact ⟨g, rfl, hlen⟩
  · rw [if_neg h0]; exact ⟨g, rfl, hlen⟩

lemma lockCellStep_eq (b : Tetromino) (g : Grid) (c : (Nat × Nat) × Int) (g' : Grid)
    (h : lockCellStep b (some g) c = some g') :
    g' = g ∨
      (c.2 ≠ 0 ∧ 0 ≤ b.y + (c.1.1 : Int) ∧ (b.y + (c.1.1 : Int)).toNat < g.length ∧
        g' = setCell g (b.y + (c.1.1 : Int)) (b.x + (c.1.2 : Int)) b.color) := by
  unfold lockCellStep at h
  dsimp only at h
  by_cases h0 : c.2 ≠ 0
  · rw [if_pos h0] at h
    by_cases h1 : 0 ≤ b.y + (c.1.1 : Int) ∧ (b.y + (c.1.1 : Int)).toNat < g.length
    · rw [if_pos h1] at h
      simp only [Option.some.injEq] at h
      exact Or.inr ⟨h0, h1.1, h1.2, h.symm⟩
    · rw [if_neg h1] at h; exact absurd h (by simp)
  · rw [if_neg h0] at h
    simp only [Option.some.injEq] at h
    exact Or.inl h.symm

lemma lockCellStep_some (b : Tetromino) (g : Grid) (c : (Nat × Nat) × Int)
    (hlen : g.length = 20)
    (hsafe : c.2 ≠ 0 → 0 ≤ b.y + (c.1.1 : Int) ∧ b.y + (c.1.1 : Int) ≤ 19) :
    ∃ g', lockCellStep b (some g) c = some g' ∧ g'.length = 20 := by
  unfold lockCellStep
  dsimp only
  by_cases h0 : c.2 ≠ 0
  · rw [if_pos h0]
    have h1 : 0 ≤ b.y + (c.1.1 : Int) ∧ (b.y + (c.1.1 : Int)).toNat < g.length := by
      have := hsafe h0
      omega
    rw [if_pos h1]
    exact ⟨_, rfl, by rw [setCell_length]; exact hlen⟩
  · rw [if_neg h0]; exact ⟨g, rfl, hlen⟩

/-! ### Derived lemmas about mergeBlockWithBlock and lockedGridOf -/

lemma merge_some (g : Grid) (b : Tetromino) (hlen : g.length = 20)
    (hsafe : ∀ c ∈ shapeCells 0 b.shape, c.2 ≠ 0 → b.y + (c.1.1 : Int) ≤ 19) :
    ∃ g', mergeBlockWithBlock g b = some g' := by
  obtain ⟨g', hfold, _⟩ :=
    foldl_total (f := mergeCellStep b) (fun gg => gg.length = 20)
      (fun c => c.2 ≠ 0 → b.y + (c.1.1 : Int) ≤ 19)
      (fun gg c hP hQ => mergeCellStep_some b gg c hP hQ)
      (shapeCells 0 b.shape) g hlen hsafe
  exact ⟨g', hfold⟩

lemma merge_gridOK (g : Grid) (b : Tetromino) (g' : Grid) (hg : GridOK g)
    (hcol : 0 ≤ b.color) (h : mergeBlockWithBlock g b = some g') : GridOK g' := by
  refine foldl_some_pres (mergeCellStep_none b) GridOK ?_ _ g g' hg h
  intro gi c g2 hP hstep
  rcases mergeCellStep_eq b gi c g2 hstep with he | ⟨_, _, _, _, _, _, _, he⟩
  · exact he ▸ hP
  · subst he
    obtain ⟨hP1, hP2, hP3⟩ := hP
    exact ⟨by rw [setCell_length]; exact hP1,
      setCell_rows_length gi _ _ _ 10 hP2,
      setCell_rows_nonneg gi _ _ _ hcol hP3⟩

lemma merge_length (g : Grid) (b : Tetromino) (g' : Grid)
    (h : mergeBlockWithBlock g b = some g') : g'.length = g.length := by
  refine foldl_some_pres (mergeCellStep_none b) (fun gg => gg.length = g.length) ?_ _ g g' rfl h
  intro gi c g2 hP hstep
  rcases mergeCellStep_eq b gi c g2 hstep with he | ⟨_, _, _, _, _, _, _, he⟩
  · exact he ▸ hP
  · subst he; rw [setCell_length]; exact hP

lemma merge_keep (g : Grid) (b : Tetromino) (g' : Grid) (r c : Int)
    (h : mergeBlockWithBlock g b = some g') (hval : 1 ≤ getCell g r c) :
    getCell g' r c = getCell g r c := by
  refine foldl_some_pres (mergeCellStep_none b)
    (fun gg => getCell gg r c = getCell g r c) ?_ _ g g' rfl h
  intro gi cc g2 hP hstep
  rcases mergeCellStep_eq b gi cc g2 hstep with he | ⟨_, _, _, _, _, _, hle, he⟩
  · exact he ▸ hP
  · subst he
    rw [getCell_setCell_ne]
    · exact hP
    · rintro ⟨e1, e2⟩
      rw [e1, e2, hP] at hle
      omega

lemma merge_nz (g : Grid) (b : Tetromino) (g' : Grid) (r c : Int)
    (hcol : b.color ≠ 0) (h : mergeBlockWithBlock g b = some g')
    (h0 : getCell g r c ≠ 0) : getCell g' r c ≠ 0 := by
  refine foldl_some_pres (mergeCellStep_none b)
    (fun gg => getCell gg r c ≠ 0) ?_ _ g g' h0 h
  intro gi cc g2 hP hstep
  rcases mergeCellStep_eq b gi cc g2 hstep with he | ⟨_, _, _, _, _, _, _, he⟩
  · exact he ▸ hP
  · subst he
    rcases getCell_setCell_cases gi (b.y + (cc.1.1 : Int)) (b.x + (cc.1.2 : Int)) r c b.color
      with hc | hc
    · rw [hc]; exact hP
    · rw [hc]; exact hcol

lemma locked_some (g : Grid) (b : Tetromino) (hlen : g.length = 20)
    (hsafe : ∀ c ∈ shapeCells 0 b.shape,
      c.2 ≠ 0 → 0 ≤ b.y + (c.1.1 : Int) ∧ b.y + (c.1.1 : Int) ≤ 19) :
    ∃ g', lockedGridOf g b = some g' := by
  obtain ⟨g', hfold, _⟩ :=
    foldl_total (f := lockCellStep b) (fun gg => gg.length = 20)
      (fun c => c.2 ≠ 0 → 0 ≤ b.y + (c.1.1 : Int) ∧ b.y + (c.1.1 : Int) ≤ 19)
      (fun gg c hP hQ => lockCellStep_some b gg c hP hQ)
      (shapeCells 0 b.shape) g hlen hsafe
  exact ⟨g', hfold⟩

lemma locked_gridOK (g : Grid) (b : Tetromino) (g' : Grid) (hg : GridOK g)
    (hcol : 0 ≤ b.color) (h : lockedGridOf g b = some g') : GridOK g' := by
  refine foldl_some_pres (lockCellStep_none b) GridOK ?_ _ g g' hg h
  intro gi c g2 hP hstep
  rcases lockCellStep_eq b gi c g2 hstep with he | ⟨_, _, _, he⟩
  · exact he ▸ hP
  · subst he
    obtain ⟨hP1, hP2, hP3⟩ := hP
    exact ⟨by rw [setCell_length]; exact hP1,
      setCell_rows_length gi _ _ _ 10 hP2,
      setCell_rows_nonneg gi _ _ _ hcol hP3⟩

lemma locked_nz (g : Grid) (b : Tetromino) (g' : Grid) (r c : Int)
    (hcol : b.color ≠ 0) (h : lockedGridOf g b = some g')
    (h0 : getCell g r c ≠ 0) : getCell g' r c ≠ 0 := by
  refine foldl_some_pres (lockCellStep_none b)
    (fun gg => getCell gg r c ≠ 0) ?_ _ g g' h0 h
  intro gi cc g2 hP hstep
  rcases lockCellStep_eq b gi cc g2 hstep with he | ⟨_, _, _, he⟩
  · exact he ▸ hP
  · subst he
    rcases getCell_setCell_cases gi (b.y + (cc.1.1 : Int)) (b.x + (cc.1.2 : Int)) r c b.color
      with hc | hc
    · rw [hc]; exact hP
    · rw [hc]; exact hcol

lemma merge_writes (g : Grid) (b : Tetromino) (g' : Grid)
    (hg : GridOK g) (hcol : 0 < b.color)
    (cc : (Nat × Nat) × Int) (hmem : cc ∈ shapeCells 0 b.shape) (hv : cc.2 ≠ 0)
    (hY0 : 0 ≤ b.y + (cc.1.1 : Int)) (hY1 : b.y + (cc.1.1 : Int) ≤ 19)
    (hX0 : 0 ≤ b.x + (cc.1.2 : Int)) (hX1 : b.x + (cc.1.2 : Int) < 10)
    (hm : mergeBlockWithBlock g b = some g') :
    getCell g' (b.y + (cc.1.1 : Int)) (b.x + (cc.1.2 : Int)) ≠ 0 := by
  obtain ⟨l1, l2, hsplit⟩ := List.append_of_mem hmem
  unfold mergeBlockWithBlock at hm
  rw [hsplit] at hm
  obtain ⟨g1, hfold1, hfold2⟩ := foldl_append_some (mergeCellStep_none b) l1 (cc :: l2) g g' hm
  have hg1 : GridOK g1 :=
    foldl_some_pres (mergeCellStep_none b) GridOK
      (fun gi c g2 hP hstep => by
        rcases mergeCellStep_eq b gi c g2 hstep with he | ⟨_, _, _, _, _, _, _, he⟩
        · exact he ▸ hP
        · subst he
          obtain ⟨hP1, hP2, hP3⟩ := hP
          exact ⟨by rw [setCell_length]; exact hP1,
            setCell_rows_length gi _ _ _ 10 hP2,
            setCell_rows_nonneg gi _ _ _ (by omega) hP3⟩)
      l1 g g1 hg hfold1
  simp only [List.foldl_cons] at hfold2
  cases hstep : mergeCellStep b (some g1) cc with
  | none => rw [hstep, foldl_none_fixed (mergeCellStep_none b)] at hfold2; exact absurd hfold2 (by simp)
  | some g2 =>
    rw [hstep] at hfold2
    have hg2nz : getCell g2 (b.y + (cc.1.1 : Int)) (b.x + (cc.1.2 : Int)) ≠ 0 := by
      have hg1a : g1.length = 20 := hg1.1
      have hrowlen : ((b.y + (cc.1.1 : Int)).toNat < g1.length ∧
          (b.x + (cc.1.2 : Int)).toNat < (g1.getD (b.y + (cc.1.1 : Int)).toNat []).length) := by
        have hrl := hg1.2.1 _ (getD_mem g1 (b.y + (cc.1.1 : Int)).toNat [] (by omega))
        constructor
        · omega
        · omega
      unfold mergeCellStep at hstep
      dsimp only at hstep
      rw [if_pos hv] at hstep
      rw [if_pos ⟨hY0, by omega, hX0, hX1⟩] at hstep
      rw [if_pos hrowlen.1] at hstep
      by_cases h3 : getCell g1 (b.y + (cc.1.1 : Int)) (b.x + (cc.1.2 : Int)) ≤ 0
      · rw [if_pos h3] at hstep
        simp only [Option.some.injEq] at hstep
        rw [← hstep]
        rw [getCell_setCell_self g1 _ _ b.color hY0 hX0 hrowlen.1 hrowlen.2]
        omega
      · rw [if_neg h3] at hstep
        simp only [Option.some.injEq] at hstep
        rw [← hstep]
        omega
    refine foldl_some_pres (mergeCellStep_none b)
      (fun gg => getCell gg (b.y + (cc.1.1 : Int)) (b.x + (cc.1.2 : Int)) ≠ 0) ?_ _ g2 g' hg2nz hfold2
    intro gi c2 g3 hP hstep2
    rcases mergeCellStep_eq b gi c2 g3 hstep2 with he | ⟨_, _, _, _, _, _, _, he⟩
    · exact he ▸ hP
    · subst he
      rcases getCell_setCell_cases gi (b.y + (c2.1.1 : Int)) (b.x + (c2.1.2 : Int))
        (b.y + (cc.1.1 : Int)) (b.x + (cc.1.2 : Int)) b.color with hc | hc
      · rw [hc]; exact hP
      · rw [hc]; omega

/-! ### Facts about the shape catalog and its rotations -/

lemma allowed_ne_nil : ∀ s ∈ allowedShapes, s ≠ [] := by decide

lemma allowed_height : ∀ s ∈ allowedShapes, 1 ≤ s.length ∧ s.length ≤ 4 := by decide

lemma allowed_width :
    ∀ s ∈ allowedShapes, 1 ≤ (s.headD []).length ∧ (s.headD []).length ≤ 4 := by decide

lemma allowed_rect :
    ∀ s ∈ allowedShapes, ∀ row ∈ s, row.length = (s.headD []).length := by decide

lemma allowed_occupied :
    ∀ s ∈ allowedShapes, ∀ j, j < s.length →
      ∃ i, i < (s.getD j []).length ∧ (s.getD j []).getD i 0 ≠ 0 := by decide

lemma allowed_rotationClosed :
    ∀ s ∈ allowedShapes, tetrominoRotation s ∈ allowedShapes := by decide

lemma tetrominoes_PieceOK : ∀ t ∈ tetrominoes, PieceOK t := by decide

lemma tetrominoes_length : tetrominoes.length = 7 := by decide

lemma getD_tetromino_fact (n : Nat) :
    (tetrominoes.getD n defaultTetromino).shape ∈ allowedShapes ∧
      0 < (tetrominoes.getD n defaultTetromino).color := by
  rcases Nat.lt_or_ge n 7 with h | h
  · interval_cases n <;> decide
  · rw [getD_of_length_le tetrominoes n defaultTetromino (by rw [tetrominoes_length]; omega)]
    decide

lemma drawnPiece_fields (q : ℚ) :
    (drawnPiece q).shape ∈ allowedShapes ∧ 0 < (drawnPiece q).color ∧
      (drawnPiece q).x = 4 ∧ (drawnPiece q).y = 0 := by
  have h := getD_tetromino_fact (jsTrunc (rngStream q / 4294967296 * 7)).toNat
  exact ⟨h.1, h.2, rfl, rfl⟩

lemma drawnPiece_PieceOK (q : ℚ) : PieceOK (drawnPiece q) := by
  obtain ⟨h1, h2, h3, h4⟩ := drawnPiece_fields q
  refine ⟨h1, h2, by rw [h4]; omega, ?_⟩
  have := allowed_height _ h1
  rw [h4]
  omega

lemma rng_nonneg (q : ℚ) (h : 0 ≤ q) : 0 ≤ rngStream q := by
  unfold rngStream jsMod jsTrunc
  have ha : (0 : ℚ) ≤ 1664525 * q + 1013904223 := by nlinarith
  have hdiv : (0 : ℚ) ≤ (1664525 * q + 1013904223) / 4294967296 := by positivity
  rw [if_pos hdiv]
  have hfr : (0 : ℚ) ≤ Int.fract ((1664525 * q + 1013904223) / 4294967296) :=
    Int.fract_nonneg _
  rw [Int.fract] at hfr
  nlinarith

/-! ### Clamp, collision and lock-test translations -/

lemma clampX_fields (b : Tetromino) :
    (clampX b).shape = b.shape ∧ (clampX b).y = b.y ∧ (clampX b).color = b.color := by
  unfold clampX
  dsimp only
  split_ifs <;> exact ⟨rfl, rfl, rfl⟩

lemma clampX_x_range (b : Tetromino) (hw : (b.shape.headD []).length ≤ 10) :
    0 ≤ (clampX b).x ∧ (clampX b).x + ((b.shape.headD []).length : Int) ≤ 10 := by
  unfold clampX
  dsimp only
  split_ifs <;> (try dsimp only) <;> omega

lemma collision_iff (g : Grid) (b : Tetromino) (ox oy : Int) :
    collisionChecker g b ox oy = true ↔
      ∃ cc ∈ shapeCells 0 b.shape, cc.2 ≠ 0 ∧
        (b.x + (cc.1.2 : Int) + ox < 0 ∨ 10 ≤ b.x + (cc.1.2 : Int) + ox ∨
          20 ≤ b.y + (cc.1.1 : Int) + oy ∨
          (0 ≤ b.y + (cc.1.1 : Int) + oy ∧ (b.y + (cc.1.1 : Int) + oy).toNat < g.length ∧
            getCell g (b.y + (cc.1.1 : Int) + oy) (b.x + (cc.1.2 : Int) + ox) ≠ 0)) := by
  unfold collisionChecker
  rw [List.any_eq_true]
  constructor
  · rintro ⟨cc, hmem, hp⟩
    refine ⟨cc, hmem, ?_⟩
    simp only [Bool.and_eq_true, Bool.or_eq_true, decide_eq_true_eq] at hp
    tauto
  · rintro ⟨cc, hmem, hv, hd⟩
    refine ⟨cc, hmem, ?_⟩
    simp only [Bool.and_eq_true, Bool.or_eq_true, decide_eq_true_eq]
    tauto

lemma lockChecker_iff (b : Tetromino) (g : Grid) :
    lockBlockChecker b g = true ↔
      (19 < b.y + (b.shape.length : Int) ∨ collisionChecker g b 0 1 = true ∨ b.y < -1) := by
  unfold lockBlockChecker
  simp only [Bool.or_eq_true, decide_eq_true_eq]
  tauto

lemma getCell_nonneg (g : Grid) (hg : ∀ row ∈ g, ∀ v ∈ row, 0 ≤ v) (r c : Int) :
    0 ≤ getCell g r c := by
  unfold getCell
  split
  · by_cases hr : r.toNat < g.length
    · have hrow := getD_mem g r.toNat [] hr
      by_cases hc : c.toNat < (g.getD r.toNat []).length
      · exact hg _ hrow _ (getD_mem _ c.toNat 0 hc)
      · rw [getD_of_length_le _ c.toNat 0 (by omega)]
    · rw [getD_of_length_le g r.toNat [] (by omega)]
      simp
  · exact le_refl 0

lemma topRowFull_of_cell (g : Grid) (x : Int) (hx0 : 0 ≤ x) (hx1 : x < 10)
    (hlen : g.length = 20) (hrows : ∀ row ∈ g, row.length = 10)
    (h : getCell g 0 x ≠ 0) : topRowFull g = true := by
  unfold topRowFull
  rw [List.any_eq_true]
  cases g with
  | nil => simp at hlen
  | cons r rest =>
    have hr : r.length = 10 := hrows r (by simp)
    have hget : getCell (r :: rest) 0 x = r.getD x.toNat 0 := by
      unfold getCell
      rw [if_pos ⟨le_refl 0, hx0⟩]
      rfl
    refine ⟨r.getD x.toNat 0, getD_mem r x.toNat 0 (by omega), ?_⟩
    rw [hget] at h
    simpa using h

/-! ### clearAndMoveRows lemmas -/

lemma filter_length_compl {α : Type} (l : List α) (p : α → Bool) :
    (l.filter p).length + (l.filter (fun a => !(p a))).length = l.length := by
  induction l with
  | nil => rfl
  | cons a t ih =>
    simp only [List.filter_cons]
    cases hpa : p a <;> simp only [hpa, Bool.not_true, Bool.not_false, if_true, if_false] <;>
      simp <;> omega

lemma clearedRowCount_eq (grid : Grid) :
    grid.length - (grid.filter rowHasZero).length =
      (grid.filter (fun r => !(rowHasZero r))).length := by
  have h := filter_length_compl grid rowHasZero
  have h2 := List.length_filter_le rowHasZero grid
  omega

lemma clear_gridOK (g : Grid) (sc lv : Nat) (hg : GridOK g) :
    GridOK (clearAndMoveRows g sc lv).1 := by
  obtain ⟨h1, h2, h3⟩ := hg
  unfold clearAndMoveRows
  dsimp only
  refine ⟨?_, ?_, ?_⟩
  · rw [List.length_append, List.length_replicate]
    have := List.length_filter_le rowHasZero g
    omega
  · intro row hrow
    rcases List.mem_append.1 hrow with h | h
    · rw [List.eq_of_mem_replicate h]; simp
    · exact h2 _ (List.mem_of_mem_filter h)
  · intro row hrow
    rcases List.mem_append.1 hrow with h | h
    · rw [List.eq_of_mem_replicate h]
      intro v hv
      rw [List.eq_of_mem_replicate hv]
    · exact h3 _ (List.mem_of_mem_filter h)

/-! ### Shape-cell bounds for allowed shapes -/

lemma allowed_cell_bounds (s : List (List Int)) (hs : s ∈ allowedShapes) :
    ∀ cc ∈ shapeCells 0 s, cc.1.1 < s.length ∧ cc.1.2 < (s.headD []).length := by
  intro cc hmem
  obtain ⟨j, hj, hy, hx, hv⟩ := mem_shapeCells.1 hmem
  constructor
  · omega
  · have := allowed_rect s hs (s.getD j []) (getD_mem s j [] hj)
    omega

lemma allowed_row_occupied (s : List (List Int)) (hs : s ∈ allowedShapes)
    (j : Nat) (hj : j < s.length) :
    ∃ cc ∈ shapeCells 0 s, cc.1.1 = j ∧ cc.2 ≠ 0 := by
  obtain ⟨i, hi, hv⟩ := allowed_occupied s hs j hj
  refine ⟨((j, i), (s.getD j []).getD i 0), mem_shapeCells.2 ⟨j, hj, by simp, hi, rfl⟩,
    rfl, hv⟩

/-- If the (clamped) piece locks while its anchor row is still -1, the merged
board always has a non-empty top row, so `lockBlock` takes the game-over
branch: either the piece has a cell in board row 0 that gets written, or the
collision below was against a cell already sitting in board row 0. -/
lemma topfull_of_lock_at_minus1 (g : Grid) (b2 : Tetromino)
    (hg : GridOK g) (hs : b2.shape ∈ allowedShapes) (hcol : 0 < b2.color)
    (hy : b2.y = -1) (hx0 : 0 ≤ b2.x)
    (hx1 : b2.x + ((b2.shape.headD []).length : Int) ≤ 10)
    (hlock : lockBlockChecker b2 g = true)
    (g1 : Grid) (hm : mergeBlockWithBlock g b2 = some g1) :
    topRowFull g1 = true := by
  obtain ⟨hg1, hg2, hg3⟩ := hg
  have hh := allowed_height _ hs
  have hw := allowed_width _ hs
  obtain ⟨m1, m2, m3⟩ := merge_gridOK g b2 g1 ⟨hg1, hg2, hg3⟩ (by omega) hm
  rcases (lockChecker_iff b2 g).1 hlock with ha | hb | hc
  · omega
  · obtain ⟨cc, hmem, hv, hd⟩ := (collision_iff g b2 0 1).1 hb
    have hbnd := allowed_cell_bounds _ hs cc hmem
    rcases hd with h | h | h | h
    · omega
    · omega
    · omega
    · by_cases h2 : 2 ≤ b2.shape.length
      · obtain ⟨dd, hdmem, hdrow, hdv⟩ := allowed_row_occupied _ hs 1 (by omega)
        have hdb := allowed_cell_bounds _ hs dd hdmem
        have hnz := merge_writes g b2 g1 ⟨hg1, hg2, hg3⟩ hcol dd hdmem hdv
          (by omega) (by omega) (by omega) (by omega) hm
        have he0 : b2.y + (dd.1.1 : Int) = 0 := by omega
        rw [he0] at hnz
        exact topRowFull_of_cell g1 (b2.x + (dd.1.2 : Int)) (by omega) (by omega) m1 m2 hnz
      · have hcc0 : (cc.1.1 : Int) = 0 := by
          have := hbnd.1
          omega
        have hty0 : b2.y + (cc.1.1 : Int) + 1 = 0 := by omega
        rw [hty0] at h
        have hpos : 1 ≤ getCell g 0 (b2.x + (cc.1.2 : Int) + 0) := by
          have := getCell_nonneg g hg3 0 (b2.x + (cc.1.2 : Int) + 0)
          omega
        have hkeep := merge_keep g b2 g1 0 (b2.x + (cc.1.2 : Int) + 0) hm hpos
        refine topRowFull_of_cell g1 (b2.x + (cc.1.2 : Int) + 0) (by omega) (by omega) m1 m2 ?_
        rw [hkeep]
        omega
  · omega

/-- Soundness of one reducer step, given the invariant facts about the piece
as it stands just before the lock test. -/
lemma after_piece_sound (s : State) (e : GameEvent) (q : ℚ)
    (hgOK : GridOK s.grid) (hfb : PieceOK s.fallingBlock) (hq : 0 ≤ q)
    (hsh : (pieceAfter s e).shape ∈ allowedShapes)
    (hcol : 0 < (pieceAfter s e).color)
    (hy0 : -1 ≤ (pieceAfter s e).y)
    (hx0 : 0 ≤ (pieceAfter s e).x)
    (hx1 : (pieceAfter s e).x + (((pieceAfter s e).shape.headD []).length : Int) ≤ 10)
    (hrow : ∀ cc ∈ shapeCells 0 (pieceAfter s e).shape,
        cc.2 ≠ 0 → (pieceAfter s e).y + (cc.1.1 : Int) ≤ 19) :
    ∃ out, stateUpdater s e q = some out ∧ StateOK out.1 ∧ 0 ≤ out.2 := by
  set b2 := pieceAfter s e with hb2
  unfold stateUpdater
  dsimp only
  rw [← hb2]
  by_cases hlock : lockBlockChecker b2 s.grid = true
  · rw [if_pos hlock]
    unfold lockBlock
    obtain ⟨g1, hm⟩ := merge_some s.grid b2 hgOK.1 hrow
    rw [hm]
    dsimp only
    have hg1OK : GridOK g1 := merge_gridOK _ _ _ hgOK (by omega) hm
    by_cases htop : topRowFull g1 = true
    · rw [if_pos htop]
      exact ⟨_, rfl, ⟨hgOK, hfb⟩, rng_nonneg q hq⟩
    · rw [if_neg htop]
      have hy0' : 0 ≤ b2.y := by
        by_contra hneg
        exact htop (topfull_of_lock_at_minus1 s.grid b2 hgOK hsh hcol (by omega) hx0 hx1
          hlock g1 hm)
      obtain ⟨g2, hlg⟩ := locked_some g1 b2 hg1OK.1
        (fun cc hmem hv => ⟨by omega, hrow cc hmem hv⟩)
      rw [hlg]
      refine ⟨_, rfl, ⟨locked_gridOK g1 b2 g2 hg1OK (by omega) hlg, ?_⟩, rng_nonneg q hq⟩
      exact drawnPiece_PieceOK q
  · rw [if_neg hlock]
    have hno : ¬(19 < b2.y + (b2.shape.length : Int) ∨
        collisionChecker s.grid b2 0 1 = true ∨ b2.y < -1) := by
      intro hcontra
      exact hlock ((lockChecker_iff b2 s.grid).2 hcontra)
    push_neg at hno
    rw [if_neg (show ¬(b2.y < -1) by omega)]
    refine ⟨_, rfl, ⟨clear_gridOK s.grid s.score s.level hgOK, ?_⟩, hq⟩
    exact ⟨hsh, hcol, hy0, by exact hno.1⟩

/-! ### Facts about the piece after the move/rotate dispatch -/

lemma b1_facts_move (b0 : Tetromino) (grid : Grid) (dx dy : Int)
    (hpa : b0.shape ∈ allowedShapes) (hpc : 0 < b0.color) (hpy : -1 ≤ b0.y)
    (hpyh : b0.y + (b0.shape.length : Int) ≤ 19)
    (hdy0 : 0 ≤ dy) (hdy1 : dy ≤ 1) :
    (movedPiece b0 (GameEvent.Move dx dy) grid).shape ∈ allowedShapes ∧
    0 < (movedPiece b0 (GameEvent.Move dx dy) grid).color ∧
    -1 ≤ (movedPiece b0 (GameEvent.Move dx dy) grid).y ∧
    ∀ cc ∈ shapeCells 0 (movedPiece b0 (GameEvent.Move dx dy) grid).shape,
      cc.2 ≠ 0 → (movedPiece b0 (GameEvent.Move dx dy) grid).y + (cc.1.1 : Int) ≤ 19 := by
  unfold movedPiece
  dsimp only
  refine ⟨hpa, hpc, by omega, ?_⟩
  intro cc hmem _
  have := allowed_cell_bounds _ hpa cc hmem
  omega

lemma b1_facts_rotate (b0 : Tetromino) (grid : Grid)
    (hpa : b0.shape ∈ allowedShapes) (hpc : 0 < b0.color) (hpy : -1 ≤ b0.y)
    (hpyh : b0.y + (b0.shape.length : Int) ≤ 19) :
    (movedPiece b0 GameEvent.Rotate grid).shape ∈ allowedShapes ∧
    0 < (movedPiece b0 GameEvent.Rotate grid).color ∧
    -1 ≤ (movedPiece b0 GameEvent.Rotate grid).y ∧
    ∀ cc ∈ shapeCells 0 (movedPiece b0 GameEvent.Rotate grid).shape,
      cc.2 ≠ 0 → (movedPiece b0 GameEvent.Rotate grid).y + (cc.1.1 : Int) ≤ 19 := by
  unfold movedPiece
  dsimp only
  by_cases hc : collisionChecker grid { b0 with shape := tetrominoRotation b0.shape } 0 0 = true
  · rw [if_pos hc]
    refine ⟨hpa, hpc, hpy, ?_⟩
    intro cc hmem _
    have := allowed_cell_bounds _ hpa cc hmem
    omega
  · rw [if_neg hc]
    refine ⟨allowed_rotationClosed _ hpa, hpc, hpy, ?_⟩
    intro cc hmem hv
    by_contra hgt
    apply hc
    refine (collision_iff grid { b0 with shape := tetrominoRotation b0.shape } 0 0).2 ?_
    exact ⟨cc, hmem, hv, Or.inr (Or.inr (Or.inl (by omega)))⟩

/-- One reducer step from any state satisfying the invariant, under any of the
four events the program generates, is defined and preserves the invariant. -/
theorem step_sound (s : State) (e : GameEvent) (q : ℚ)
    (hs : StateOK s) (hq : 0 ≤ q) (he : e ∈ unitEvents) :
    ∃ out, stateUpdater s e q = some out ∧ StateOK out.1 ∧ 0 ≤ out.2 := by
  obtain ⟨hgOK, hpa, hpc, hpy, hpyh⟩ := hs
  have hb1 : (movedPiece s.fallingBlock e s.grid).shape ∈ allowedShapes ∧
      0 < (movedPiece s.fallingBlock e s.grid).color ∧
      -1 ≤ (movedPiece s.fallingBlock e s.grid).y ∧
      ∀ cc ∈ shapeCells 0 (movedPiece s.fallingBlock e s.grid).shape,
        cc.2 ≠ 0 → (movedPiece s.fallingBlock e s.grid).y + (cc.1.1 : Int) ≤ 19 := by
    have he' : e = GameEvent.Move (-1) 0 ∨ e = GameEvent.Move 1 0 ∨
        e = GameEvent.Move 0 1 ∨ e = GameEvent.Rotate := by
      simpa [unitEvents] using he
    rcases he' with h | h | h | h <;> subst h
    · exact b1_facts_move _ _ _ _ hpa hpc hpy hpyh (by omega) (by omega)
    · exact b1_facts_move _ _ _ _ hpa hpc hpy hpyh (by omega) (by omega)
    · exact b1_facts_move _ _ _ _ hpa hpc hpy hpyh (by omega) (by omega)
    · exact b1_facts_rotate _ _ hpa hpc hpy hpyh
  obtain ⟨h1a, h1c, h1y, h1row⟩ := hb1
  have hcf := clampX_fields (movedPiece s.fallingBlock e s.grid)
  have hwid := allowed_width _ h1a
  have hxr := clampX_x_range (movedPiece s.fallingBlock e s.grid) (by omega)
  have hpieceEq : pieceAfter s e = clampX (movedPiece s.fallingBlock e s.grid) := rfl
  apply after_piece_sound s e q hgOK ⟨hpa, hpc, hpy, hpyh⟩ hq
  · rw [hpieceEq, hcf.1]; exact h1a
  · rw [hpieceEq, hcf.2.2]; exact h1c
  · rw [hpieceEq, hcf.2.1]; exact h1y
  · rw [hpieceEq]; exact hxr.1
  · rw [hpieceEq, hcf.1]; exact hxr.2
  · rw [hpieceEq, hcf.1, hcf.2.1]; exact h1row

/-! ### Concrete PRNG values at seed 0 -/

lemma rngStream_zero : rngStream 0 = 1013904223 := by
  unfold rngStream jsMod jsTrunc
  rw [show (1664525 * (0 : ℚ) + 1013904223) = 1013904223 by norm_num]
  rw [if_pos (by positivity)]
  rw [show (⌊(1013904223 : ℚ) / 4294967296⌋ : Int) = 0 by
        rw [Int.floor_eq_zero_iff]; constructor <;> norm_num]
  norm_num

lemma draw_zero : drawnPiece 0 = { shape := [[1, 1, 1, 1]], color := 2, x := 4, y := 0 } := by
  unfold drawnPiece getRandomTetromino
  rw [rngStream_zero]
  rw [show ((1013904223 : ℚ) / 4294967296 * 7) = 7097329561 / 4294967296 by norm_num]
  rw [show jsTrunc ((7097329561 : ℚ) / 4294967296) = 1 by
        unfold jsTrunc
        rw [if_pos (by positivity)]
        rw [Int.floor_eq_iff] <;> norm_num]
  rfl

/-! ### The rotation as transpose-and-reverse, entrywise -/

lemma getD_append_ge {α : Type} (l1 l2 : List α) (n : Nat) (d : α) (h : l1.length ≤ n) :
    (l1 ++ l2).getD n d = l2.getD (n - l1.length) d := by
  induction l1 generalizing n with
  | nil => simp
  | cons a t ih =>
    cases n with
    | zero => simp at h
    | succ m =>
      simp only [List.cons_append, List.getD_cons_succ]
      rw [ih m (by simpa using h)]
      simp only [List.length_cons]
      congr 1
      omega

lemma getD_map_range {α : Type} (w i : Nat) (f : Nat → α) (d : α) (h : i < w) :
    ((List.range w).map f).getD i d = f i := by
  induction w generalizing i with
  | zero => omega
  | succ n ih =>
    rw [List.range_succ, List.map_append]
    by_cases hi : i < n
    · rw [List.getD_append _ _ _ _ (by simpa using hi)]
      exact ih i hi
    · have : i = n := by omega
      subst this
      rw [getD_append_ge _ _ _ _ (by simp)]
      simp

lemma rot_length (shape : List (List Int)) :
    (tetrominoRotation shape).length = (shape.headD []).length := by
  unfold tetrominoRotation
  simp

lemma rot_row_length (shape : List (List Int)) :
    ∀ row ∈ tetrominoRotation shape, row.length = shape.length := by
  intro row hrow
  unfold tetrominoRotation at hrow
  obtain ⟨c, hc, he⟩ := List.mem_map.1 hrow
  rw [← he]
  simp

lemma getD_reverse {α : Type} (l : List α) (j : Nat) (d : α) (h : j < l.length) :
    l.reverse.getD j d = l.getD (l.length - 1 - j) d := by
  induction l generalizing j with
  | nil => simp at h
  | cons a t ih =>
    rw [List.reverse_cons]
    by_cases hj : j < t.length
    · rw [List.getD_append _ _ _ _ (by simpa using hj), ih j hj]
      have hlen : (a :: t).length - 1 - j = (t.length - 1 - j) + 1 := by
        simp only [List.length_cons]
        omega
      rw [hlen]
      rfl
    · have hj' : j = t.length := by simp at h; omega
      subst hj'
      rw [getD_append_ge _ _ _ _ (by simp)]
      have h0 : (a :: t).length - 1 - t.length = 0 := by simp
      rw [h0]
      simp

lemma getD_map_getD (shape : List (List Int)) (k c : Nat) (hk : k < shape.length) :
    (shape.map (fun row => row.getD c 0)).getD k 0 = (shape.getD k []).getD c 0 := by
  induction shape generalizing k with
  | nil => simp at hk
  | cons r t ih =>
    cases k with
    | zero => rfl
    | succ n => simpa using ih n (by simpa using hk)

lemma rot_entry (shape : List (List Int)) (i j : Nat)
    (hi : i < (shape.headD []).length) (hj : j < shape.length) :
    ((tetrominoRotation shape).getD i []).getD j 0 =
      (shape.getD (shape.length - 1 - j) []).getD i 0 := by
  unfold tetrominoRotation
  rw [getD_map_range _ i _ [] hi]
  rw [getD_reverse _ j 0 (by simpa using hj)]
  have hlen : (shape.map (fun row => row.getD i 0)).length = shape.length := by simp
  rw [hlen]
  exact getD_map_getD shape (shape.length - 1 - j) i (by omega)

/-! ### Case anatomy of one reducer step -/

lemma stateUpdater_anatomy (s : State) (e : GameEvent) (q : ℚ) (out : State) (q' : ℚ)
    (h : stateUpdater s e q = some (out, q')) :
    (∃ g1, lockBlockChecker (pieceAfter s e) s.grid = true ∧
      mergeBlockWithBlock s.grid (pieceAfter s e) = some g1 ∧
      ((topRowFull g1 = true ∧ out = { s with gameEnd := true } ∧ q' = rngStream q) ∨
        (topRowFull g1 = false ∧ ∃ g2, lockedGridOf g1 (pieceAfter s e) = some g2 ∧
          out = { s with grid := g2, fallingBlock := drawnPiece q, nextBlock := drawnPiece q } ∧
          q' = rngStream q))) ∨
    (lockBlockChecker (pieceAfter s e) s.grid = false ∧ (pieceAfter s e).y < -1 ∧
      out = { s with gameEnd := true } ∧ q' = q) ∨
    (lockBlockChecker (pieceAfter s e) s.grid = false ∧ ¬((pieceAfter s e).y < -1) ∧
      out = { s with grid := (clearAndMoveRows s.grid s.score s.level).1, fallingBlock := pieceAfter s e, score := (clearAndMoveRows s.grid s.score s.level).2.1, level := (clearAndMoveRows s.grid s.score s.level).2.2 } ∧ q' = q) := by
  unfold stateUpdater at h
  dsimp only at h
  by_cases hlock : lockBlockChecker (pieceAfter s e) s.grid = true
  · rw [if_pos hlock] at h
    unfold lockBlock at h
    cases hm : mergeBlockWithBlock s.grid (pieceAfter s e) with
    | none => rw [hm] at h; exact absurd h (by simp)
    | some g1 =>
      rw [hm] at h
      dsimp only at h
      by_cases htop : topRowFull g1 = true
      · rw [if_pos htop] at h
        simp only [Option.some.injEq, Prod.mk.injEq] at h
        exact Or.inl ⟨g1, hlock, rfl, Or.inl ⟨htop, h.1.symm, h.2.symm⟩⟩
      · rw [if_neg htop] at h
        cases hlg : lockedGridOf g1 (pieceAfter s e) with
        | none => rw [hlg] at h; exact absurd h (by simp)
        | some g2 =>
          rw [hlg] at h
          simp only [Option.some.injEq, Prod.mk.injEq] at h
          exact Or.inl ⟨g1, hlock, rfl,
            Or.inr ⟨by simpa using htop, g2, hlg, h.1.symm, h.2.symm⟩⟩
  · rw [if_neg hlock] at h
    have hlockF : lockBlockChecker (pieceAfter s e) s.grid = false := by
      simpa using hlock
    by_cases hym : (pieceAfter s e).y < -1
    · rw [if_pos hym] at h
      simp only [Option.some.injEq, Prod.mk.injEq] at h
      exact Or.inr (Or.inl ⟨hlockF, hym, h.1.symm, h.2.symm⟩)
    · rw [if_neg hym] at h
      simp only [Option.some.injEq, Prod.mk.injEq] at h
      exact Or.inr (Or.inr ⟨hlockF, hym, h.1.symm, h.2.symm⟩)

/-! ### Further shared helper lemmas for the claims -/

lemma movedPiece_rotate_shape (b0 : Tetromino) (g : Grid) :
    (movedPiece b0 GameEvent.Rotate g).shape =
      (if collisionChecker g { b0 with shape := tetrominoRotation b0.shape } 0 0
        then b0.shape else tetrominoRotation b0.shape) := by
  unfold movedPiece
  dsimp only
  by_cases hc : collisionChecker g { b0 with shape := tetrominoRotation b0.shape } 0 0 = true
  · rw [if_pos hc, if_pos hc]
  · rw [if_neg hc, if_neg hc]

/-! ### Claim C1 -/

/-- Claim C1 (as stated) is false on the code: in `lockBlock` the freshly drawn
piece becomes BOTH `fallingBlock` and `nextBlock`; the previously queued
`nextBlock` (here the T-tetromino, colour 3) never becomes the falling piece.
At seed 0 the fresh draw is the I-tetromino (colour 2). -/
theorem C1_counterexample :
    stateUpdater c1State (GameEvent.Move 0 1) 0 = some (c1Out, rngStream 0) ∧
    lockBlockChecker (pieceAfter c1State (GameEvent.Move 0 1)) c1State.grid = true ∧
    c1Out.gameEnd = false ∧
    c1Out.fallingBlock = { shape := [[1, 1, 1, 1]], color := 2, x := 4, y := 0 } ∧
    c1Out.fallingBlock ≠ c1State.nextBlock := by
  refine ⟨rfl, by decide, rfl, ?_, ?_⟩
  · exact draw_zero
  · rw [show c1Out.fallingBlock = drawnPiece 0 from rfl, draw_zero]
    decide

/-- Claim C1 (amended): when a Move or Rotate event causes the piece to lock
without ending the game, the returned state's fallingBlock AND nextBlock are
both the single freshly drawn piece; the previous queued piece is discarded. -/
theorem C1_lock_replaces_both_with_fresh_draw (s : State) (e : GameEvent) (q : ℚ)
    (out : State) (q' : ℚ) (g1 : Grid)
    (hlock : lockBlockChecker (pieceAfter s e) s.grid = true)
    (hm : mergeBlockWithBlock s.grid (pieceAfter s e) = some g1)
    (htop : topRowFull g1 = false)
    (hupd : stateUpdater s e q = some (out, q')) :
    out.fallingBlock = drawnPiece q ∧ out.nextBlock = drawnPiece q := by
  rcases stateUpdater_anatomy s e q out q' hupd with
    ⟨g1', hlock', hm', hcase⟩ | ⟨hlockF, _, _, _⟩ | ⟨hlockF, _, _, _⟩
  · rw [hm] at hm'
    injection hm' with he
    subst he
    rcases hcase with ⟨htop', _, _⟩ | ⟨_, g2, hlg, hout, _⟩
    · rw [htop'] at htop; simp at htop
    · subst hout; exact ⟨rfl, rfl⟩
  · rw [hlockF] at hlock; simp at hlock
  · rw [hlockF] at hlock; simp at hlock

/-- Witness for C1's amended theorem at a concrete locking transition. -/
theorem C1_witness :
    c1Out.fallingBlock = drawnPiece 0 ∧ c1Out.nextBlock = drawnPiece 0 :=
  C1_lock_replaces_both_with_fresh_draw c1State (GameEvent.Move 0 1) 0 c1Out (rngStream 0)
    c1Grid (by decide) (by decide) (by decide) rfl

/-! ### Claim C2 -/

/-- Claim C2 (as stated) is false on the code: `stateUpdater` never tests
`gameEnd`, so from a terminal state whose board still has a complete bottom
row, a `Move 0 1` event clears that row and raises the score from 0 to 100. -/
theorem C2_counterexample :
    c2State.gameEnd = true ∧
    stateUpdater c2State (GameEvent.Move 0 1) 0 = some (c2Out, 0) ∧
    c2State.score = 0 ∧ c2Out.score = 100 ∧ c2Out.grid ≠ c2State.grid := by
  decide

/-- Claim C2 (amended): the reducer does not special-case terminal states, so
gameplay fields may still change after `gameEnd` is set (see the
counterexample); when the event again triggers the lock branch and the merged
board's top row is non-empty — as happens in the state that just ended the
game — the reducer returns the state unchanged, apart from the PRNG seed,
which advances.  (Other branches can incidentally also return an unchanged
state, e.g. a rejected rotation over a board with no complete rows; no
exclusivity is claimed.  That `gameEnd` itself is never reset is C10.) -/
theorem C2_terminal_state_only_on_relock (s : State) (e : GameEvent) (q : ℚ) (g1 : Grid)
    (hEnd : s.gameEnd = true)
    (hlock : lockBlockChecker (pieceAfter s e) s.grid = true)
    (hm : mergeBlockWithBlock s.grid (pieceAfter s e) = some g1)
    (htop : topRowFull g1 = true) :
    stateUpdater s e q = some (s, rngStream q) := by
  unfold stateUpdater
  dsimp only
  rw [if_pos hlock]
  unfold lockBlock
  rw [hm]
  dsimp only
  rw [if_pos htop]
  have hs : ({ s with gameEnd := true } : State) = s := by
    cases s with
    | mk ge gr fb nb sc lv =>
      simp only at hEnd
      rw [hEnd]
  rw [hs]
  rfl

/-- Witness for C2's amended theorem: a terminal state whose stale falling
piece re-locks against the full top row is returned unchanged. -/
theorem C2_witness :
    stateUpdater c2wState (GameEvent.Move 0 1) 0 = some (c2wState, rngStream 0) :=
  C2_terminal_state_only_on_relock c2wState (GameEvent.Move 0 1) 0 c2wMerged rfl
    (by decide) (by decide) (by decide)

/-! ### Claim C3 -/

/-- Claim C3 (as stated) is false on the code: from the initial state itself
(falling piece = catalog O-piece), the event `Move 0 30` locks the piece at
row 29 and the unchecked lock-in write `rowAcc[29][x] = colour` indexes a
missing row, a TypeError (modelled as `none`). -/
theorem C3_counterexample :
    c3Tet ∈ tetrominoes ∧
    stateUpdater (initialState c3Tet c3Tet) (GameEvent.Move 0 30) 0 = none := by
  decide

/-- Claim C3 (amended): restricted to the four events the program actually
generates (Move(-1,0), Move(1,0), Move(0,1), Rotate), the reducer is total
from every state reachable from the initial state. -/
theorem C3_total_on_program_events_from_reachable (fb nb : Tetromino) (q0 : ℚ)
    (s : State) (q : ℚ) (e : GameEvent)
    (hfb : fb ∈ tetrominoes) (hq0 : 0 ≤ q0)
    (hreach : Relation.ReflTransGen stepRel (initialState fb nb, q0) (s, q))
    (he : e ∈ unitEvents) :
    ∃ out, stateUpdater s e q = some out := by
  have hinv : ∀ p : State × ℚ, Relation.ReflTransGen stepRel (initialState fb nb, q0) p →
      StateOK p.1 ∧ 0 ≤ p.2 := by
    intro p hp
    induction hp with
    | refl =>
      refine ⟨⟨?_, tetrominoes_PieceOK fb hfb⟩, hq0⟩
      show GridOK (List.replicate 20 (List.replicate 10 0))
      decide
    | tail hab hbc ih =>
      obtain ⟨e', he', hup⟩ := hbc
      obtain ⟨o, hout, hOK, hq2⟩ := step_sound _ e' _ ih.1 ih.2 he'
      rw [hup] at hout
      injection hout with he2
      rw [he2]
      exact ⟨hOK, hq2⟩
  obtain ⟨hOK, hq⟩ := hinv (s, q) hreach
  obtain ⟨o, hout, _, _⟩ := step_sound s e q hOK hq he
  exact ⟨o, hout⟩

/-- Witness for C3's amended theorem: the state reached by one gravity tick
from the initial state (a one-step reachability chain) accepts another tick. -/
theorem C3_witness :
    ∃ out, stateUpdater c3Step1 (GameEvent.Move 0 1) 0 = some out :=
  C3_total_on_program_events_from_reachable c3Tet c3Tet 0 c3Step1 0
    (GameEvent.Move 0 1) (by decide) (le_refl 0)
    (Relation.ReflTransGen.single ⟨GameEvent.Move 0 1, by decide, by decide⟩)
    (by decide)

/-! ### Claim C4 -/

/-- Claim C4 (as stated) is false on the code: the lock-in second pass of
`lockBlock` writes the piece colour unconditionally, overwriting the board
cell (19,4) that held colour 3 with colour 1. -/
theorem C4_counterexample :
    getCell c4State.grid 19 4 = 3 ∧
    lockBlockChecker (pieceAfter c4State (GameEvent.Move 0 1)) c4State.grid = true ∧
    stateUpdater c4State (GameEvent.Move 0 1) 0 = some (c4Out, rngStream 0) ∧
    getCell c4Out.grid 19 4 = 1 := by
  refine ⟨by decide, by decide, rfl, by decide⟩

/-- Claim C4 (amended): the first merge pass (`mergeBlockWithBlock`) never
overwrites an already non-empty cell — any cell with value at least 1 keeps
exactly its value; the unconditional lock-in second pass does overwrite (see
the counterexample). -/
theorem C4_merge_pass_preserves_nonempty (g : Grid) (b : Tetromino) (g1 : Grid) (r c : Int)
    (hm : mergeBlockWithBlock g b = some g1) (hv : 1 ≤ getCell g r c) :
    getCell g1 r c = getCell g r c :=
  merge_keep g b g1 r c hm hv

/-- Witness for C4's amended theorem: the merge pass leaves the occupied cell
(19,4) of colour 3 unchanged. -/
theorem C4_witness :
    getCell c4Merged 19 4 = getCell c4State.grid 19 4 :=
  C4_merge_pass_preserves_nonempty c4State.grid (pieceAfter c4State (GameEvent.Move 0 1))
    c4Merged 19 4 (by decide) (by decide)

/-! ### Claim C5 -/

/-- Claim C5 (as stated) is false on the code: when the game ends exactly on
the locking event, the whole merge is discarded — the returned grid is the
pre-lock grid, so it does NOT still contain the row completed by that lock
(row 19 is complete in the merged grid but has empty cells in the output). -/
theorem C5_counterexample :
    lockBlockChecker (pieceAfter c5State (GameEvent.Move 0 1)) c5State.grid = true ∧
    mergeBlockWithBlock c5State.grid (pieceAfter c5State (GameEvent.Move 0 1)) =
      some c5Merged ∧
    rowHasZero (c5Merged.getD 19 []) = false ∧
    stateUpdater c5State (GameEvent.Move 0 1) 0 =
      some ({ c5State with gameEnd := true }, rngStream 0) ∧
    rowHasZero ((({ c5State with gameEnd := true } : State).grid).getD 19 []) = true := by
  refine ⟨by decide, by decide, by decide, rfl, by decide⟩

/-- Claim C5 (amended): (1) a lock that does not end the game keeps every
non-empty cell of the merged board non-empty in the output (so completed rows
survive) and leaves score, level and gameEnd untouched; (2) an event that does
not lock runs `clearAndMoveRows` on the pre-move board, removing its complete
rows and paying 100 per row; (3) a lock that ends the game discards the merge
entirely: the output grid is the pre-lock grid. -/
theorem C5_one_event_clear_latency :
    (∀ (s : State) (e : GameEvent) (q : ℚ) (out : State) (q' : ℚ) (g1 : Grid),
      lockBlockChecker (pieceAfter s e) s.grid = true →
      mergeBlockWithBlock s.grid (pieceAfter s e) = some g1 →
      topRowFull g1 = false →
      (pieceAfter s e).color ≠ 0 →
      stateUpdater s e q = some (out, q') →
      out.score = s.score ∧ out.level = s.level ∧ out.gameEnd = s.gameEnd ∧
        ∀ r c : Int, getCell g1 r c ≠ 0 → getCell out.grid r c ≠ 0) ∧
    (∀ (s : State) (e : GameEvent) (q : ℚ) (out : State) (q' : ℚ),
      lockBlockChecker (pieceAfter s e) s.grid = false →
      stateUpdater s e q = some (out, q') →
      out.grid = List.replicate ((s.grid.filter (fun r => !(rowHasZero r))).length)
          (List.replicate 10 0) ++ s.grid.filter rowHasZero ∧
      out.score = s.score + 100 * (s.grid.filter (fun r => !(rowHasZero r))).length) ∧
    (∀ (s : State) (e : GameEvent) (q : ℚ) (out : State) (q' : ℚ) (g1 : Grid),
      lockBlockChecker (pieceAfter s e) s.grid = true →
      mergeBlockWithBlock s.grid (pieceAfter s e) = some g1 →
      topRowFull g1 = true →
      stateUpdater s e q = some (out, q') →
      out.grid = s.grid ∧ out.gameEnd = true ∧ out.score = s.score) := by
  refine ⟨?_, ?_, ?_⟩
  · intro s e q out q' g1 hlock hm htop hcol hupd
    rcases stateUpdater_anatomy s e q out q' hupd with
      ⟨g1', hlock', hm', hcase⟩ | ⟨hlockF, _, _, _⟩ | ⟨hlockF, _, _, _⟩
    · rw [hm] at hm'
      injection hm' with he
      subst he
      rcases hcase with ⟨htop', _, _⟩ | ⟨_, g2, hlg, hout, _⟩
      · rw [htop'] at htop; simp at htop
      · subst hout
        exact ⟨rfl, rfl, rfl, fun r c hnz => locked_nz g1 (pieceAfter s e) g2 r c hcol hlg hnz⟩
    · rw [hlockF] at hlock; simp at hlock
    · rw [hlockF] at hlock; simp at hlock
  · intro s e q out q' hnl hupd
    rcases stateUpdater_anatomy s e q out q' hupd with
      ⟨g1', hlock', _, _⟩ | ⟨hlockF, hym, _, _⟩ | ⟨_, _, hout, _⟩
    · rw [hnl] at hlock'; simp at hlock'
    · exfalso
      have hc : lockBlockChecker (pieceAfter s e) s.grid = true :=
        (lockChecker_iff _ _).2 (Or.inr (Or.inr hym))
      rw [hnl] at hc; simp at hc
    · subst hout
      constructor
      · show (clearAndMoveRows s.grid s.score s.level).1 = _
        unfold clearAndMoveRows
        dsimp only
        rw [clearedRowCount_eq]
      · show (clearAndMoveRows s.grid s.score s.level).2.1 = _
        unfold clearAndMoveRows
        dsimp only
        rw [clearedRowCount_eq]
        omega
  · intro s e q out q' g1 hlock hm htop hupd
    rcases stateUpdater_anatomy s e q out q' hupd with
      ⟨g1', hlock', hm', hcase⟩ | ⟨hlockF, _, _, _⟩ | ⟨hlockF, _, _, _⟩
    · rw [hm] at hm'
      injection hm' with he
      subst he
      rcases hcase with ⟨_, hout, _⟩ | ⟨htopF, _, _, _, _⟩
      · subst hout; exact ⟨rfl, rfl, rfl⟩
      · rw [htop] at htopF; simp at htopF
    · rw [hlockF] at hlock; simp at hlock
    · rw [hlockF] at hlock; simp at hlock

/-- Witness for C5's amended theorem, part (1): a lock completing row 19
without game over keeps the score at 0 and row 19's cells non-empty. -/
theorem C5_witness :
    c5wOut.score = c5wState.score ∧ getCell c5wMerged 19 0 ≠ 0 ∧
      getCell c5wOut.grid 19 0 ≠ 0 := by
  have h := C5_one_event_clear_latency.1 c5wState (GameEvent.Move 0 1) 0 c5wOut (rngStream 0)
    c5wMerged (by decide) (by decide) (by decide) (by decide) rfl
  exact ⟨h.1, by decide, h.2.2.2 19 0 (by decide)⟩

/-! ### Claim C6 -/

/-- Claim C6: one `clearAndMoveRows` pass removes exactly the complete rows
(no cell equal to 0) keeping the remaining rows in order, prepends as many
all-empty rows, keeps the board 20 rows high, pays 100 per removed row, and
recomputes `level = score' / 500 + 1`; with no complete row the board and the
score are unchanged, and the level is unchanged provided it satisfied the
program's own `level = score / 500 + 1` relation (which holds in every state
the program produces). -/
theorem C6_clear_rows_spec (grid : Grid) (score level : Nat) (h20 : grid.length = 20) :
    (clearAndMoveRows grid score level).1 =
        List.replicate ((grid.filter (fun r => !(rowHasZero r))).length)
          (List.replicate 10 0) ++ grid.filter rowHasZero ∧
    (clearAndMoveRows grid score level).1.length = 20 ∧
    (clearAndMoveRows grid score level).2.1 =
        score + 100 * (grid.filter (fun r => !(rowHasZero r))).length ∧
    (clearAndMoveRows grid score level).2.2 =
        (score + 100 * (grid.filter (fun r => !(rowHasZero r))).length) / 500 + 1 ∧
    ((grid.filter (fun r => !(rowHasZero r))).length = 0 →
      (clearAndMoveRows grid score level).1 = grid ∧
      (clearAndMoveRows grid score level).2.1 = score ∧
      (level = score / 500 + 1 → (clearAndMoveRows grid score level).2.2 = level)) := by
  have hk := clearedRowCount_eq grid
  have hle := List.length_filter_le rowHasZero grid
  refine ⟨?_, ?_, ?_, ?_, ?_⟩
  · unfold clearAndMoveRows
    dsimp only
    rw [hk]
  · unfold clearAndMoveRows
    dsimp only
    rw [List.length_append, List.length_replicate]
    omega
  · unfold clearAndMoveRows
    dsimp only
    rw [hk]
    omega
  · unfold clearAndMoveRows
    dsimp only
    rw [hk, Nat.mul_comm ((grid.filter (fun r => !(rowHasZero r))).length) 100]
  · intro h0
    have hz : grid.filter rowHasZero = grid := by
      apply List.filter_eq_self.mpr
      intro a ha
      have hnil : grid.filter (fun r => !(rowHasZero r)) = [] := List.length_eq_zero.mp h0
      have h2 := List.filter_eq_nil.mp hnil a ha
      simpa using h2
    have hzero : grid.length - (grid.filter rowHasZero).length = 0 := by
      rw [hz]; omega
    refine ⟨?_, ?_, ?_⟩
    · unfold clearAndMoveRows
      dsimp only
      rw [hz, show grid.length - grid.length = 0 from by omega]
      rfl
    · unfold clearAndMoveRows
      dsimp only
      rw [hzero]
      omega
    · intro hl
      unfold clearAndMoveRows
      dsimp only
      rw [hzero]
      simpa using hl.symm

/-- Witness for C6 on a 20-row board with two complete rows: score goes from
360 to 560 and the level from 1 to 2. -/
theorem C6_witness :
    (clearAndMoveRows c6Grid 360 1).2.1 = 560 ∧ (clearAndMoveRows c6Grid 360 1).2.2 = 2 ∧
      (clearAndMoveRows c6Grid 360 1).1.length = 20 := by
  have h := C6_clear_rows_spec c6Grid 360 1 (by decide)
  refine ⟨?_, ?_, h.2.1⟩
  · rw [h.2.2.1]; decide
  · rw [h.2.2.2.1]; decide

/-! ### Claim C7 -/

/-- Claim C7: on a Rotate event the rotated matrix is exactly the transpose
with each resulting row reversed (C rows by R columns, entrywise
`rotated[i][j] = shape[R-1-j][i]`), and as long as the event does not trigger
the lock branch the reducer adopts the rotated shape exactly when the rotated
piece does not collide with the board at offset (0,0), leaving the shape
unchanged otherwise. -/
theorem C7_rotation_spec (s : State) (q : ℚ) (out : State) (q' : ℚ)
    (hne : s.fallingBlock.shape ≠ [])
    (hrect : ∀ row ∈ s.fallingBlock.shape,
      row.length = (s.fallingBlock.shape.headD []).length)
    (hupd : stateUpdater s GameEvent.Rotate q = some (out, q'))
    (hnl : lockBlockChecker (pieceAfter s GameEvent.Rotate) s.grid = false) :
    (tetrominoRotation s.fallingBlock.shape).length =
        (s.fallingBlock.shape.headD []).length ∧
    (∀ row ∈ tetrominoRotation s.fallingBlock.shape,
        row.length = s.fallingBlock.shape.length) ∧
    (∀ i, i < (s.fallingBlock.shape.headD []).length →
      ∀ j, j < s.fallingBlock.shape.length →
        ((tetrominoRotation s.fallingBlock.shape).getD i []).getD j 0 =
          (s.fallingBlock.shape.getD (s.fallingBlock.shape.length - 1 - j) []).getD i 0) ∧
    out.fallingBlock.shape =
      (if collisionChecker s.grid
          { s.fallingBlock with shape := tetrominoRotation s.fallingBlock.shape } 0 0
        then s.fallingBlock.shape else tetrominoRotation s.fallingBlock.shape) := by
  refine ⟨rot_length _, rot_row_length _, fun i hi j hj => rot_entry _ i j hi hj, ?_⟩
  rcases stateUpdater_anatomy s GameEvent.Rotate q out q' hupd with
    ⟨g1', hlock', _, _⟩ | ⟨hlockF, hym, _, _⟩ | ⟨_, _, hout, _⟩
  · rw [hnl] at hlock'; simp at hlock'
  · exfalso
    have hc : lockBlockChecker (pieceAfter s GameEvent.Rotate) s.grid = true :=
      (lockChecker_iff _ _).2 (Or.inr (Or.inr hym))
    rw [hnl] at hc; simp at hc
  · subst hout
    show (pieceAfter s GameEvent.Rotate).shape = _
    rw [show (pieceAfter s GameEvent.Rotate).shape =
        (movedPiece s.fallingBlock GameEvent.Rotate s.grid).shape from (clampX_fields _).1]
    exact movedPiece_rotate_shape s.fallingBlock s.grid

/-- Witness for C7: rotating the T-piece with free space adopts the
transpose-reverse shape. -/
theorem C7_witness : c7Out.fallingBlock.shape = [[1, 0], [1, 1], [1, 0]] := by
  have h := C7_rotation_spec c7State 0 c7Out 0 (by decide) (by decide) rfl (by decide)
  rw [h.2.2.2]
  decide

/-! ### Claim C8 -/

/-- Claim C8 (as stated) is false on the code: if the Move triggers a lock
whose merged board has a non-empty top row, `lockBlock` returns the previous
state with only `gameEnd` set — the falling piece keeps its out-of-range
anchor x = -5. -/
theorem C8_counterexample :
    c8State.fallingBlock.x = -5 ∧
    stateUpdater c8State (GameEvent.Move 0 1) 0 =
      some ({ c8State with gameEnd := true }, rngStream 0) ∧
    ({ c8State with gameEnd := true } : State).fallingBlock.x = -5 ∧
    ¬(0 ≤ ({ c8State with gameEnd := true } : State).fallingBlock.x) := by
  refine ⟨rfl, rfl, rfl, by decide⟩

/-- Claim C8 (amended): after one Move event the falling piece's anchor lies
within [0, 10 - width] — whether it is the clamped moved piece or a freshly
drawn piece — unless the move triggers a game-ending lock, in which case the
previous falling piece is returned unchanged. -/
theorem C8_clamp_unless_game_over (s : State) (dx dy : Int) (q : ℚ) (out : State) (q' : ℚ)
    (hw : (s.fallingBlock.shape.headD []).length ≤ 10)
    (hupd : stateUpdater s (GameEvent.Move dx dy) q = some (out, q')) :
    (0 ≤ out.fallingBlock.x ∧
      out.fallingBlock.x + ((out.fallingBlock.shape.headD []).length : Int) ≤ 10) ∨
    (out.fallingBlock = s.fallingBlock ∧ out.gameEnd = true) := by
  rcases stateUpdater_anatomy s (GameEvent.Move dx dy) q out q' hupd with
    ⟨g1, _, _, hcase⟩ | ⟨_, _, hout, _⟩ | ⟨_, _, hout, _⟩
  · rcases hcase with ⟨_, hout, _⟩ | ⟨_, g2, _, hout, _⟩
    · subst hout; exact Or.inr ⟨rfl, rfl⟩
    · subst hout
      left
      have hf := drawnPiece_fields q
      have hwd := (allowed_width _ hf.1).2
      show 0 ≤ (drawnPiece q).x ∧
        (drawnPiece q).x + (((drawnPiece q).shape.headD []).length : Int) ≤ 10
      rw [hf.2.2.1]
      omega
  · subst hout; exact Or.inr ⟨rfl, rfl⟩
  · subst hout
    left
    have hshape : (pieceAfter s (GameEvent.Move dx dy)).shape = s.fallingBlock.shape :=
      (clampX_fields _).1
    have hx := clampX_x_range (movedPiece s.fallingBlock (GameEvent.Move dx dy) s.grid)
      (by exact hw)
    show 0 ≤ (pieceAfter s (GameEvent.Move dx dy)).x ∧
      (pieceAfter s (GameEvent.Move dx dy)).x +
        (((pieceAfter s (GameEvent.Move dx dy)).shape.headD []).length : Int) ≤ 10
    rw [hshape]
    exact ⟨hx.1, hx.2⟩

/-- Witness for C8's amended theorem: a piece at x = -5 moved right is clamped
back into range. -/
theorem C8_witness :
    0 ≤ c8wOut.fallingBlock.x ∧
      c8wOut.fallingBlock.x + ((c8wOut.fallingBlock.shape.headD []).length : Int) ≤ 10 := by
  have h := C8_clamp_unless_game_over c8wState 1 0 0 c8wOut 0 (by decide) (by decide)
  rcases h with h | h
  · exact h
  · exact absurd h.2 (by decide)

/-! ### Claim C9 -/

/-- Claim C9: after any lock that does not end the game, the returned
fallingBlock and nextBlock are the SAME single freshly drawn piece (a pure
function of the seed, so the previously queued piece never becomes the
falling piece), spawned at anchor (4, 0). -/
theorem C9_lock_spawns_identical_pair (s : State) (e : GameEvent) (q : ℚ)
    (out : State) (q' : ℚ) (g1 : Grid)
    (hlock : lockBlockChecker (pieceAfter s e) s.grid = true)
    (hm : mergeBlockWithBlock s.grid (pieceAfter s e) = some g1)
    (htop : topRowFull g1 = false)
    (hupd : stateUpdater s e q = some (out, q')) :
    out.fallingBlock = out.nextBlock ∧ out.fallingBlock.x = 4 ∧ out.fallingBlock.y = 0 ∧
      out.fallingBlock = drawnPiece q ∧ q' = rngStream q := by
  rcases stateUpdater_anatomy s e q out q' hupd with
    ⟨g1', hlock', hm', hcase⟩ | ⟨hlockF, _, _, _⟩ | ⟨hlockF, _, _, _⟩
  · rw [hm] at hm'
    injection hm' with he
    subst he
    rcases hcase with ⟨htop', _, _⟩ | ⟨_, g2, hlg, hout, hq'⟩
    · rw [htop'] at htop; simp at htop
    · subst hout
      exact ⟨rfl, (drawnPiece_fields q).2.2.1, (drawnPiece_fields q).2.2.2, rfl, hq'⟩
  · rw [hlockF] at hlock; simp at hlock
  · rw [hlockF] at hlock; simp at hlock

/-- Witness for C9 at a concrete locking transition with seed 0. -/
theorem C9_witness :
    c9Out.fallingBlock = c9Out.nextBlock ∧ c9Out.fallingBlock.x = 4 ∧
      c9Out.fallingBlock.y = 0 ∧ c9Out.fallingBlock = drawnPiece 0 := by
  have h := C9_lock_spawns_identical_pair c9State (GameEvent.Move 0 1) 0 c9Out (rngStream 0)
    c9Merged (by decide) (by decide) (by decide) rfl
  exact ⟨h.1, h.2.1, h.2.2.1, h.2.2.2.1⟩

/-! ### Claim C10 -/

/-- Claim C10: the gameEnd flag is monotone — every branch of the reducer
either copies the input's gameEnd or sets it to true, so no transition resets
it from true to false. -/
theorem C10_gameEnd_monotone (s : State) (e : GameEvent) (q : ℚ) (out : State) (q' : ℚ)
    (hupd : stateUpdater s e q = some (out, q')) (hEnd : s.gameEnd = true) :
    out.gameEnd = true := by
  rcases stateUpdater_anatomy s e q out q' hupd with
    ⟨g1, _, _, hcase⟩ | ⟨_, _, hout, _⟩ | ⟨_, _, hout, _⟩
  · rcases hcase with ⟨_, hout, _⟩ | ⟨_, g2, _, hout, _⟩
    · subst hout; rfl
    · subst hout; exact hEnd
  · subst hout; rfl
  · subst hout; exact hEnd

/-- Witness for C10: a terminal state stays terminal across a gravity tick. -/
theorem C10_witness : c10Out.gameEnd = true :=
  C10_gameEnd_monotone c10State (GameEvent.Move 0 1) 0 c10Out 0 (by decide) rfl
